import Mathlib

/-
Verification of the media ingestion and deduplication pipeline of the
skibidi67 repository (Rust, Rocket + DashMap).  The definitions below are a
shallow embedding of the source files src/routes/media.rs, src/routes/videos.rs,
src/state.rs, src/models.rs and src/error.rs.

Modelling conventions:
  * Byte buffers are lists of naturals (one per byte).
  * Each DashMap is an association list with unique keys; DashMap iteration
    order is modelled as list order.
  * The filesystem under upload_dir is a map from file name to contents
    (the constant upload_dir prefix of every path is dropped).
  * External libraries (sha2, tlsh2, ffmpeg, std UTF-8 validation) are
    parameters, bundled in the structure Ext below; the pipeline is defined
    for an arbitrary Ext and the theorems instantiate it where needed.
  * Timestamps (chrono) are irrelevant to every claim and are omitted from
    the records; comment storage is likewise not modelled.
-/

deriving instance DecidableEq for Except

namespace Skibidi

abbrev Bytes := List Nat

/-- Lookup in an association list, first binding wins (DashMap get). -/
def alookup {κ β : Type} [DecidableEq κ] : List (κ × β) → κ → Option β
  | [], _ => none
  | (k, v) :: rest, q => if k = q then some v else alookup rest q

/-- Remove every binding of a key (DashMap remove). -/
def aerase {κ β : Type} [DecidableEq κ] : List (κ × β) → κ → List (κ × β)
  | [], _ => []
  | (k, v) :: rest, q => if k = q then aerase rest q else (k, v) :: aerase rest q

/-- Insert or overwrite a binding (DashMap insert). -/
def ainsert {κ β : Type} [DecidableEq κ] (m : List (κ × β)) (k : κ) (v : β) :
    List (κ × β) :=
  (k, v) :: aerase m k

@[simp] theorem alookup_nil {κ β : Type} [DecidableEq κ] (q : κ) :
    alookup ([] : List (κ × β)) q = none := rfl

@[simp] theorem alookup_cons {κ β : Type} [DecidableEq κ] (k q : κ) (v : β)
    (m : List (κ × β)) :
    alookup ((k, v) :: m) q = if k = q then some v else alookup m q := rfl

@[simp] theorem aerase_nil {κ β : Type} [DecidableEq κ] (q : κ) :
    aerase ([] : List (κ × β)) q = [] := rfl

@[simp] theorem aerase_cons {κ β : Type} [DecidableEq κ] (k q : κ) (v : β)
    (m : List (κ × β)) :
    aerase ((k, v) :: m) q =
      if k = q then aerase m q else (k, v) :: aerase m q := rfl

theorem alookup_aerase_self {κ β : Type} [DecidableEq κ]
    (m : List (κ × β)) (k : κ) : alookup (aerase m k) k = none := by
  induction m with
  | nil => simp
  | cons p rest ih =>
    obtain ⟨a, b⟩ := p
    by_cases h : a = k <;> simp [h, ih]

theorem alookup_aerase_ne {κ β : Type} [DecidableEq κ]
    (m : List (κ × β)) (k q : κ) (h : q ≠ k) :
    alookup (aerase m k) q = alookup m q := by
  induction m with
  | nil => simp
  | cons p rest ih =>
    obtain ⟨a, b⟩ := p
    by_cases ha : a = k
    · subst ha
      have haq : a ≠ q := fun hh => h hh.symm
      simp [haq, ih]
    · simp only [aerase_cons, if_neg ha, alookup_cons, ih]

@[simp] theorem alookup_ainsert_self {κ β : Type} [DecidableEq κ]
    (m : List (κ × β)) (k : κ) (v : β) : alookup (ainsert m k v) k = some v := by
  simp [ainsert]

theorem alookup_ainsert_ne {κ β : Type} [DecidableEq κ]
    (m : List (κ × β)) (k q : κ) (v : β) (h : q ≠ k) :
    alookup (ainsert m k v) q = alookup m q := by
  have hkq : k ≠ q := fun hh => h hh.symm
  simp [ainsert, hkq, alookup_aerase_ne m k q h]

theorem aerase_aerase {κ β : Type} [DecidableEq κ]
    (m : List (κ × β)) (k : κ) : aerase (aerase m k) k = aerase m k := by
  induction m with
  | nil => simp
  | cons p rest ih =>
    obtain ⟨a, b⟩ := p
    by_cases h : a = k <;> simp [h, ih]

theorem aerase_ainsert_self {κ β : Type} [DecidableEq κ]
    (m : List (κ × β)) (k : κ) (v : β) : aerase (ainsert m k v) k = aerase m k := by
  simp [ainsert, aerase_aerase]

theorem aerase_of_alookup_none {κ β : Type} [DecidableEq κ]
    (m : List (κ × β)) (k : κ) (h : alookup m k = none) : aerase m k = m := by
  induction m with
  | nil => simp
  | cons p rest ih =>
    obtain ⟨a, b⟩ := p
    by_cases ha : a = k
    · simp [ha] at h
    · simp [ha] at h ⊢
      exact ih h

/-- Keys of an association list. -/
def akeys {κ β : Type} (m : List (κ × β)) : List κ := m.map Prod.fst

theorem aerase_sublist {κ β : Type} [DecidableEq κ]
    (m : List (κ × β)) (k : κ) : (aerase m k).Sublist m := by
  induction m with
  | nil => simp
  | cons p rest ih =>
    obtain ⟨a, b⟩ := p
    by_cases h : a = k
    · simpa [h] using ih.trans (List.sublist_cons_self _ _)
    · simpa [h] using ih.cons₂ (a, b)

theorem not_mem_akeys_aerase {κ β : Type} [DecidableEq κ]
    (m : List (κ × β)) (k : κ) : k ∉ akeys (aerase m k) := by
  induction m with
  | nil => simp [akeys]
  | cons p rest ih =>
    obtain ⟨a, b⟩ := p
    by_cases h : a = k
    · simpa [akeys, h] using ih
    · simpa [akeys, h, Ne.symm h] using ih

theorem nodup_akeys_aerase {κ β : Type} [DecidableEq κ]
    (m : List (κ × β)) (k : κ) (h : (akeys m).Nodup) : (akeys (aerase m k)).Nodup :=
  ((aerase_sublist m k).map Prod.fst).nodup h

theorem nodup_akeys_ainsert {κ β : Type} [DecidableEq κ]
    (m : List (κ × β)) (k : κ) (v : β) (h : (akeys m).Nodup) :
    (akeys (ainsert m k v)).Nodup := by
  have h1 := not_mem_akeys_aerase m k
  have h2 := nodup_akeys_aerase m k h
  simp only [ainsert, akeys, List.map_cons, List.nodup_cons] at *
  exact ⟨fun hx => h1 hx, h2⟩

theorem alookup_of_mem {κ β : Type} [DecidableEq κ]
    (m : List (κ × β)) (k : κ) (v : β) (hnd : (akeys m).Nodup)
    (hmem : (k, v) ∈ m) : alookup m k = some v := by
  induction m with
  | nil => simp at hmem
  | cons p rest ih =>
    obtain ⟨a, b⟩ := p
    rw [akeys, List.map_cons, List.nodup_cons] at hnd
    rcases List.mem_cons.mp hmem with h | h
    · cases h
      simp
    · have hk : a ≠ k := by
        intro hak
        subst hak
        exact hnd.1 (List.mem_map.mpr ⟨(a, v), h, rfl⟩)
      rw [alookup_cons, if_neg hk]
      exact ih hnd.2 h

/-
External primitives consumed by the pipeline (src/routes/media.rs imports):
sha2 Sha256 hex digest, tlsh2 TlshDefaultBuilder (build, parse, diff),
the ffmpeg subprocess, and std UTF-8 validation.  They are modelled as
abstract function parameters; tlsh_diff models existing.diff(new, true).
svg_head_ok models the composite from_utf8 / trim_start / starts_with check
of the image/svg+xml arm of verify_magic_bytes as one predicate on the
byte prefix.
-/
structure Ext where
  sha256_hex : Bytes → String
  tlsh_build : Bytes → Option String
  tlsh_parse_ok : String → Bool
  tlsh_diff : String → String → Nat
  ffmpeg_convert : Bytes → Option Bytes
  utf8_ok : Bytes → Bool
  svg_head_ok : Bytes → Bool

/-
src/models.rs VideoMeta.  uploaded_at (chrono timestamp) is omitted; the
original_extension field declared in models.rs is omitted as well — the
struct literals in src/routes/media.rs and src/routes/videos.rs do not
set it, so it is dead weight for every claim.
-/
structure VideoMeta where
  id : String
  title : String
  filename : String
  content_type : String
  size_bytes : Nat
  sha256 : String
  tlsh_hash : Option String
  uploaded_by_provider : String
  uploaded_by_id : Nat
  uploaded_by_name : String
  nsfw : Bool
  unlisted : Bool
  comments_disabled : Bool
  references_id : Option String
deriving DecidableEq, Repr

/-- src/models.rs PlatformUser (avatar_url omitted, unused by the pipeline). -/
structure PlatformUser where
  provider : String
  id : Nat
  username : String
deriving DecidableEq, Repr

/-- src/state.rs UploadSession; created_at is modelled as a Nat tick. -/
structure UploadSession where
  user_provider : String
  user_id : Nat
  content_type : String
  created_at : Nat
  chunk_count : Nat
deriving DecidableEq, Repr

/-
src/error.rs AppError, restricted to the variants the pipeline produces.
The error enum in the given src/error.rs snapshot lacks the MagicMismatch,
InvalidTitle and InvalidComment variants that media.rs and videos.rs
construct; they are included here as used by that code.
-/
inductive AppErr where
  | fileTooLarge
  | duplicateVideo (id : String)
  | invalidFileType
  | videoNotFound
  | invalidTitle
  | magicMismatch
  | forbidden
  | ioErr
  | internalErr (msg : String)
deriving DecidableEq, Repr

/-
The mutable application state, src/state.rs AppState, restricted to the
fields the ingestion pipeline touches, plus the filesystem under
upload_dir: files maps file name to contents, meta_files models the
id.meta.json records, chunk_dirs models the tmp_chunks_uploadid
directories (comments and OAuth state are out of scope).
-/
structure Srv where
  videos : List (String × VideoMeta)
  video_hashes : List (String × String)
  video_tlsh : List (String × String)
  upload_sessions : List (String × UploadSession)
  admin_ids : List (String × List Nat)
  files : List (String × Bytes)
  meta_files : List (String × VideoMeta)
  chunk_dirs : List (String × List (Nat × Bytes))
deriving DecidableEq, Repr

def initSrv : Srv :=
  { videos := [], video_hashes := [], video_tlsh := [], upload_sessions := []
    admin_ids := [], files := [], meta_files := [], chunk_dirs := [] }

/-- rocket ToByteUnit: 100.mebibytes(), the whole-file cap in media.rs. -/
def MAX_UPLOAD_BYTES : Nat := 100 * 1024 * 1024

/-- 6.mebibytes(), the per-chunk cap in handle_upload_chunk. -/
def MAX_CHUNK_BYTES : Nat := 6 * 1024 * 1024

/-- MAGIC_READ_BYTES in media.rs. -/
def MAGIC_READ_BYTES : Nat := 256

/-- The tlsh distance threshold in AppState::find_similar_tlsh. -/
def SIMILARITY_THRESHOLD : Nat := 100

/-- Rust str::starts_with, at the character-list level. -/
def str_starts_with (s p : String) : Bool := p.data.isPrefixOf s.data

/-- Rust str::trim (drop whitespace from both ends), at the character-list level. -/
def str_trim (s : String) : String :=
  ⟨((s.data.dropWhile Char.isWhitespace).reverse.dropWhile Char.isWhitespace).reverse⟩

/-- Rust mime_str.split(';').next().unwrap_or(""): everything before the first semicolon. -/
def before_semicolon (s : String) : String :=
  ⟨s.data.takeWhile (fun c => c != ';')⟩

/-- media.rs is_video_mime. -/
def is_video_mime (mime : String) : Bool := str_starts_with mime "video/"

/-- media.rs is_text_mime. -/
def is_text_mime (mime : String) : Bool := mime = "text/plain"

/-
media.rs verify_magic_bytes, arm for arm.  Byte-slice comparisons such as
bytes[4..8] == *b"ftyp" become (bytes.drop 4).take 4 = [...]; single bytes
are read with getD (guarded by the length checks exactly as in the source).
-/
def verify_magic_bytes (E : Ext) (bytes : Bytes) (mime : String) : Bool :=
  if bytes.length < 4 then false
  else if mime = "video/mp4" ∨ mime = "video/quicktime" then
    decide (8 ≤ bytes.length) && decide ((bytes.drop 4).take 4 = [0x66, 0x74, 0x79, 0x70])
  else if mime = "video/webm" ∨ mime = "video/x-matroska" then
    decide (bytes.take 4 = [0x1A, 0x45, 0xDF, 0xA3])
  else if mime = "video/ogg" then
    decide (bytes.take 4 = [0x4F, 0x67, 0x67, 0x53])
  else if mime = "video/x-msvideo" then
    decide (12 ≤ bytes.length) && decide (bytes.take 4 = [0x52, 0x49, 0x46, 0x46])
      && decide ((bytes.drop 8).take 4 = [0x41, 0x56, 0x49, 0x20])
  else if mime = "audio/mpeg" then
    (decide (bytes.getD 0 0 = 0xFF) && decide (Nat.land (bytes.getD 1 0) 0xE0 = 0xE0))
      || decide (bytes.take 3 = [0x49, 0x44, 0x33])
  else if mime = "audio/ogg" then
    decide (bytes.take 4 = [0x4F, 0x67, 0x67, 0x53])
  else if mime = "audio/wav" then
    decide (12 ≤ bytes.length) && decide (bytes.take 4 = [0x52, 0x49, 0x46, 0x46])
      && decide ((bytes.drop 8).take 4 = [0x57, 0x41, 0x56, 0x45])
  else if mime = "audio/flac" then
    decide (bytes.take 4 = [0x66, 0x4C, 0x61, 0x43])
  else if mime = "audio/aac" then
    decide (bytes.getD 0 0 = 0xFF) && decide (Nat.land (bytes.getD 1 0) 0xF0 = 0xF0)
  else if mime = "audio/webm" then
    decide (bytes.take 4 = [0x1A, 0x45, 0xDF, 0xA3])
  else if mime = "image/png" then
    decide (bytes.take 4 = [0x89, 0x50, 0x4E, 0x47])
  else if mime = "image/jpeg" then
    decide (bytes.take 3 = [0xFF, 0xD8, 0xFF])
  else if mime = "image/gif" then
    decide (6 ≤ bytes.length)
      && (decide (bytes.take 6 = [0x47, 0x49, 0x46, 0x38, 0x37, 0x61])
        || decide (bytes.take 6 = [0x47, 0x49, 0x46, 0x38, 0x39, 0x61]))
  else if mime = "image/webp" then
    decide (12 ≤ bytes.length) && decide (bytes.take 4 = [0x52, 0x49, 0x46, 0x46])
      && decide ((bytes.drop 8).take 4 = [0x57, 0x45, 0x42, 0x50])
  else if mime = "image/svg+xml" then
    E.svg_head_ok (bytes.take 256)
  else if mime = "image/avif" then
    decide (12 ≤ bytes.length) && decide ((bytes.drop 4).take 4 = [0x66, 0x74, 0x79, 0x70])
  else if mime = "text/plain" then
    E.utf8_ok bytes
  else false

/-- The MIME strings with an arm in verify_magic_bytes; every other MIME falls to the final reject arm. -/
def magic_known_mimes : List String :=
  ["video/mp4", "video/quicktime", "video/webm", "video/x-matroska", "video/ogg",
   "video/x-msvideo", "audio/mpeg", "audio/ogg", "audio/wav", "audio/flac",
   "audio/aac", "audio/webm", "image/png", "image/jpeg", "image/gif",
   "image/webp", "image/svg+xml", "image/avif", "text/plain"]

/-- media.rs extension_for_mime. -/
def extension_for_mime (mime : String) : String :=
  if mime = "video/mp4" then ".mp4"
  else if mime = "video/webm" then ".webm"
  else if mime = "video/ogg" then ".ogv"
  else if mime = "video/quicktime" then ".mov"
  else if mime = "video/x-matroska" then ".mkv"
  else if mime = "video/x-msvideo" then ".avi"
  else if mime = "audio/mpeg" then ".mp3"
  else if mime = "audio/ogg" then ".ogg"
  else if mime = "audio/wav" then ".wav"
  else if mime = "audio/flac" then ".flac"
  else if mime = "audio/aac" then ".aac"
  else if mime = "audio/webm" then ".weba"
  else if mime = "image/png" then ".png"
  else if mime = "image/jpeg" then ".jpg"
  else if mime = "image/gif" then ".gif"
  else if mime = "image/webp" then ".webp"
  else if mime = "image/svg+xml" then ".svg"
  else if mime = "image/avif" then ".avif"
  else if mime = "text/plain" then ".txt"
  else ".bin"

/-
AppState::find_similar_tlsh: parse the new digest, then scan video_tlsh in
iteration order for the first entry that parses and has distance below the
threshold, returning its key.
-/
def find_similar_tlsh (E : Ext) (video_tlsh : List (String × String))
    (new_tlsh_hex : String) : Option String :=
  if E.tlsh_parse_ok new_tlsh_hex then
    (video_tlsh.find? fun p =>
      E.tlsh_parse_ok p.2 && decide (E.tlsh_diff p.2 new_tlsh_hex < SIMILARITY_THRESHOLD)).map
      Prod.fst
  else none

/-- AppState::persist_video: write id.meta.json before anything else observes it. -/
def persist_video (st : Srv) (meta : VideoMeta) : Srv :=
  { st with meta_files := ainsert st.meta_files meta.id meta }

/-- AppState::delete_video_meta. -/
def delete_video_meta (st : Srv) (video_id : String) : Srv :=
  { st with meta_files := aerase st.meta_files video_id }

/-- AppState::is_admin. -/
def is_admin (st : Srv) (provider : String) (user_id : Nat) : Bool :=
  ((alookup st.admin_ids provider).getD []).contains user_id

/-- Outcome of process_uploaded_file: an AppError, or the Created JSON payload (deduplicated flag, original_id field, video meta). -/
inductive UploadResult where
  | failed (e : AppErr)
  | created (deduplicated : Bool) (original_id : Option String) (video : VideoMeta)
deriving DecidableEq, Repr

/-
media.rs process_uploaded_file lines 526..557 (the genuinely-new-payload
commit): rename the temp file to the id-named final path, persist the
metadata record, register the exact digest, register the fuzzy digest when
present, insert into the catalog.
-/
def commit_new_owner (st : Srv) (temp_path : String) (bytes : Bytes)
    (base_mime ext title : String) (is_nsfw is_unlisted is_comments_disabled : Bool)
    (user : PlatformUser) (sha256_hex : String) (tlsh_hex : Option String)
    (video_id : String) : Srv × VideoMeta :=
  let final_filename := video_id ++ ext
  let st1 := { st with files := ainsert (aerase st.files temp_path) final_filename bytes }
  let meta : VideoMeta :=
    { id := video_id, title := title, filename := final_filename
      content_type := base_mime, size_bytes := bytes.length
      sha256 := sha256_hex, tlsh_hash := tlsh_hex
      uploaded_by_provider := user.provider, uploaded_by_id := user.id
      uploaded_by_name := user.username
      nsfw := is_nsfw, unlisted := is_unlisted
      comments_disabled := is_comments_disabled, references_id := none }
  let st2 := persist_video st1 meta
  let st3 := { st2 with video_hashes := ainsert st2.video_hashes sha256_hex video_id }
  let st4 :=
    match tlsh_hex with
    | some t => { st3 with video_tlsh := ainsert st3.video_tlsh video_id t }
    | none => st3
  let st5 := { st4 with videos := ainsert st4.videos video_id meta }
  (st5, meta)

/-
media.rs process_uploaded_file lines 482..524 (the fuzzy-duplicate commit):
delete the temp bytes, look up the original's filename (empty string when
the original id is no longer in the catalog), build a referencing record,
insert it into the catalog and persist it.
-/
def commit_reference (st : Srv) (temp_path : String) (original_id : String)
    (base_mime title : String) (size_bytes : Nat)
    (is_nsfw is_unlisted is_comments_disabled : Bool) (user : PlatformUser)
    (sha256_hex : String) (tlsh_hex : Option String) (video_id : String) :
    Srv × VideoMeta :=
  let st1 := { st with files := aerase st.files temp_path }
  let original_filename := ((alookup st1.videos original_id).map (·.filename)).getD ""
  let meta : VideoMeta :=
    { id := video_id, title := title, filename := original_filename
      content_type := base_mime, size_bytes := size_bytes
      sha256 := sha256_hex, tlsh_hash := tlsh_hex
      uploaded_by_provider := user.provider, uploaded_by_id := user.id
      uploaded_by_name := user.username
      nsfw := is_nsfw, unlisted := is_unlisted
      comments_disabled := is_comments_disabled, references_id := some original_id }
  let st2 := { st1 with videos := ainsert st1.videos video_id meta }
  let st3 := persist_video st2 meta
  (st3, meta)

/-
media.rs process_uploaded_file lines 450..566, the part after the optional
ffmpeg conversion: fingerprint (sha256 always, tlsh only for video), then
the dedup decision tree — exact hit rejects, fuzzy hit links, otherwise
commit as a new owner.
-/
def process_hashed (E : Ext) (st : Srv) (temp_path : String) (bytes : Bytes)
    (base_mime ext title : String) (is_nsfw is_unlisted is_comments_disabled : Bool)
    (user : PlatformUser) (fresh_id : String) : Srv × UploadResult :=
  let sha256_hex := E.sha256_hex bytes
  let tlsh_hex := if is_video_mime base_mime then E.tlsh_build bytes else none
  match alookup st.video_hashes sha256_hex with
  | some existing_id =>
    ({ st with files := aerase st.files temp_path },
      .failed (.duplicateVideo existing_id))
  | none =>
    let similar :=
      match tlsh_hex with
      | some new_tlsh_hex => find_similar_tlsh E st.video_tlsh new_tlsh_hex
      | none => none
    match similar with
    | some original_id =>
      let r := commit_reference st temp_path original_id base_mime title
        bytes.length is_nsfw is_unlisted is_comments_disabled user sha256_hex
        tlsh_hex fresh_id
      (r.1, .created true (some original_id) r.2)
    | none =>
      let r := commit_new_owner st temp_path bytes base_mime ext title
        is_nsfw is_unlisted is_comments_disabled user sha256_hex tlsh_hex fresh_id
      (r.1, .created false none r.2)

/-
media.rs process_uploaded_file lines 370..567.  The temp file is read from
the modelled filesystem (fs::metadata plus read_magic_bytes); the ffmpeg
file dance (write converted_path, remove temp, rename converted over temp)
is modelled by its net effect on the file map: on success the temp path
holds the converted bytes, on failure both paths are gone.
-/
def process_uploaded_file (E : Ext) (st : Srv) (temp_path : String)
    (base_mime_in title : String) (is_nsfw is_unlisted is_comments_disabled : Bool)
    (user : PlatformUser) (fresh_id : String) : Srv × UploadResult :=
  match alookup st.files temp_path with
  | none => (st, .failed .ioErr)
  | some temp_bytes =>
    if ¬ verify_magic_bytes E (temp_bytes.take MAGIC_READ_BYTES) base_mime_in then
      ({ st with files := aerase st.files temp_path }, .failed .magicMismatch)
    else if is_text_mime base_mime_in && ! E.utf8_ok temp_bytes then
      ({ st with files := aerase st.files temp_path }, .failed .magicMismatch)
    else if is_video_mime base_mime_in ∧ base_mime_in ≠ "video/mp4" then
      match E.ffmpeg_convert temp_bytes with
      | none =>
        ({ st with files := aerase st.files temp_path },
          .failed (.internalErr "ffmpeg conversion failed"))
      | some converted =>
        process_hashed E
          { st with files := ainsert (aerase st.files temp_path) temp_path converted }
          temp_path converted "video/mp4" ".mp4" title is_nsfw is_unlisted
          is_comments_disabled user fresh_id
    else
      process_hashed E st temp_path temp_bytes base_mime_in
        (extension_for_mime base_mime_in) title is_nsfw is_unlisted
        is_comments_disabled user fresh_id

/-
media.rs handle_upload.  The request body is a byte stream: rocket's
data.open(cap).into_file writes at most cap bytes to the temp path and
is_complete() holds exactly when the stream fitted under the cap.  Note:
title length is modelled with String.length (the Rust code uses byte
length; the difference is immaterial to every claim).
-/
def handle_upload (E : Ext) (st : Srv) (title0 : String)
    (nsfw unlisted comments_disabled : Option Bool) (data : Bytes)
    (content_type_hdr : String) (user : PlatformUser)
    (allowed_types : List String) (temp_id fresh_id : String) :
    Srv × UploadResult :=
  let title := str_trim title0
  if title.isEmpty || decide (title.length > 200) then (st, .failed .invalidTitle)
  else
    let base_mime := str_trim (before_semicolon content_type_hdr)
    if ¬ allowed_types.contains base_mime then (st, .failed .invalidFileType)
    else
      let is_nsfw := nsfw.getD false
      let is_unlisted := unlisted.getD false
      let is_comments_disabled := comments_disabled.getD true
      let ext := extension_for_mime base_mime
      let temp_filename := "tmp_" ++ temp_id ++ ext
      let st1 := { st with files := ainsert st.files temp_filename (data.take MAX_UPLOAD_BYTES) }
      if ¬ decide (data.length ≤ MAX_UPLOAD_BYTES) then
        ({ st1 with files := aerase st1.files temp_filename }, .failed .fileTooLarge)
      else
        process_uploaded_file E st1 temp_filename base_mime title is_nsfw
          is_unlisted is_comments_disabled user fresh_id

/-
media.rs handle_upload_chunk: authenticate against the session owner, write
the chunk (truncated at the per-chunk cap), reject and delete it when the
stream exceeded the cap, otherwise advance chunk_count monotonically.  The
two session lookups of the source (get, then get_mut after the write) find
the same session in this sequential model and are merged.
-/
def handle_upload_chunk (st : Srv) (upload_id : String) (chunk_index : Nat)
    (data : Bytes) (user : PlatformUser) : Srv × Except AppErr Nat :=
  match alookup st.upload_sessions upload_id with
  | none => (st, .error .videoNotFound)
  | some session =>
    if session.user_id ≠ user.id ∨ session.user_provider ≠ user.provider then
      (st, .error .videoNotFound)
    else
      let dir := (alookup st.chunk_dirs upload_id).getD []
      let written := data.take MAX_CHUNK_BYTES
      let dir1 := ainsert dir chunk_index written
      let st1 := { st with chunk_dirs := ainsert st.chunk_dirs upload_id dir1 }
      if ¬ decide (data.length ≤ MAX_CHUNK_BYTES) then
        ({ st1 with chunk_dirs := ainsert st1.chunk_dirs upload_id (aerase dir1 chunk_index) },
          .error .fileTooLarge)
      else
        let session1 :=
          if chunk_index ≥ session.chunk_count then
            { session with chunk_count := chunk_index + 1 }
          else session
        ({ st1 with upload_sessions := ainsert st1.upload_sessions upload_id session1 },
          .ok written.length)

/-
videos.rs upload_chunk (lines 493..527), the standalone copy mounted at
/videos: identical to handle_upload_chunk except that the result of
data.open(6.mebibytes()).into_file is never checked for completeness —
the truncated chunk is kept and acknowledged.
-/
def upload_chunk_videos (st : Srv) (upload_id : String) (chunk_index : Nat)
    (data : Bytes) (user : PlatformUser) : Srv × Except AppErr Nat :=
  match alookup st.upload_sessions upload_id with
  | none => (st, .error .videoNotFound)
  | some session =>
    if session.user_id ≠ user.id ∨ session.user_provider ≠ user.provider then
      (st, .error .videoNotFound)
    else
      let dir := (alookup st.chunk_dirs upload_id).getD []
      let written := data.take MAX_CHUNK_BYTES
      let dir1 := ainsert dir chunk_index written
      let st1 := { st with chunk_dirs := ainsert st.chunk_dirs upload_id dir1 }
      let session1 :=
        if chunk_index ≥ session.chunk_count then
          { session with chunk_count := chunk_index + 1 }
        else session
      ({ st1 with upload_sessions := ainsert st1.upload_sessions upload_id session1 },
        .ok written.length)

/-
media.rs handle_complete_upload lines 738..763: concatenate chunks
0..chunk_count in index order, checking each chunk exists (fs::metadata)
and aborting once the running total exceeds the whole-file cap.  Errors
carry the bytes already appended to the assembly temp file.
-/
def assemble_go (dir : List (Nat × Bytes)) :
    List Nat → Nat → Bytes → Except (AppErr × Bytes) Bytes
  | [], _, acc => .ok acc
  | i :: rest, total, acc =>
    match alookup dir i with
    | none => .error (.internalErr ("Missing chunk " ++ toString i), acc)
    | some chunk_data =>
      let total2 := total + chunk_data.length
      if total2 > MAX_UPLOAD_BYTES then .error (.fileTooLarge, acc)
      else assemble_go dir rest total2 (acc ++ chunk_data)

def assemble_chunks (dir : List (Nat × Bytes)) (chunk_count : Nat) :
    Except (AppErr × Bytes) Bytes :=
  assemble_go dir (List.range chunk_count) 0 []

/-
media.rs handle_complete_upload lines 703..781.  The session is removed
from the store BEFORE the owner is checked, so an owner mismatch (reported
as VideoNotFound, line 724) has already consumed the session; the chunk
directory is only removed on the assembly paths further down.  On a
FileTooLarge assembly abort both the partial temp file and the chunk
directory are removed; on a missing-chunk error the partially assembled
temp file and the chunk directory are left behind (the error propagates
with the ? operator); on success assembly feeds process_uploaded_file.
-/
def handle_complete_upload (E : Ext) (st : Srv) (upload_id title0 : String)
    (nsfw unlisted comments_disabled : Option Bool) (user : PlatformUser)
    (allowed_types : List String) (temp_id fresh_id : String) :
    Srv × UploadResult :=
  let title := str_trim title0
  if title.isEmpty || decide (title.length > 200) then (st, .failed .invalidTitle)
  else
    match alookup st.upload_sessions upload_id with
    | none => (st, .failed .videoNotFound)
    | some session =>
      let st1 := { st with upload_sessions := aerase st.upload_sessions upload_id }
      if session.user_id ≠ user.id ∨ session.user_provider ≠ user.provider then
        (st1, .failed .videoNotFound)
      else if ¬ allowed_types.contains session.content_type then
        (st1, .failed .invalidFileType)
      else
        let dir := (alookup st1.chunk_dirs upload_id).getD []
        let ext := extension_for_mime session.content_type
        let temp_filename := "tmp_" ++ temp_id ++ ext
        match assemble_chunks dir session.chunk_count with
        | .error (.fileTooLarge, _) =>
          ({ st1 with
              files := aerase st1.files temp_filename
              chunk_dirs := aerase st1.chunk_dirs upload_id },
            .failed .fileTooLarge)
        | .error (e, acc) =>
          ({ st1 with files := ainsert st1.files temp_filename acc }, .failed e)
        | .ok assembled =>
          let st2 := { st1 with
            files := ainsert st1.files temp_filename assembled
            chunk_dirs := aerase st1.chunk_dirs upload_id }
          process_uploaded_file E st2 temp_filename session.content_type title
            (nsfw.getD false) (unlisted.getD false) (comments_disabled.getD true)
            user fresh_id

/-
media.rs handle_delete: remove the catalog entry and its metadata file;
only when the deleted item was non-referencing AND no remaining item
references it are the exact-hash entry, the fuzzy-hash entry and the
backing media file removed.  Returns deleted_sha256.  (Comment deletion is
out of modelled scope.)
-/
def handle_delete (st : Srv) (id : String) : Srv × Except AppErr String :=
  match alookup st.videos id with
  | none => (st, .error .videoNotFound)
  | some meta =>
    let st1 := { st with videos := aerase st.videos id }
    let st2 := delete_video_meta st1 id
    let st3 :=
      if meta.references_id = none then
        let has_references := st2.videos.any fun e => e.2.references_id == some id
        if ¬ has_references then
          { st2 with
              video_hashes := aerase st2.video_hashes meta.sha256
              video_tlsh := aerase st2.video_tlsh id
              files := aerase st2.files meta.filename }
        else st2
      else st2
    (st3, .ok meta.sha256)

/-- media.rs handle_patch_nsfw: set the flag, persist the updated record, return. -/
def handle_patch_nsfw (st : Srv) (id : String) (nsfw : Bool) :
    Srv × Except AppErr Unit :=
  match alookup st.videos id with
  | none => (st, .error .videoNotFound)
  | some v =>
    let updated := { v with nsfw := nsfw }
    let st1 := { st with videos := ainsert st.videos id updated }
    (persist_video st1 updated, .ok ())

/-- media.rs handle_patch_comments_disabled: owner-or-admin gated flag mutation, persisted before returning. -/
def handle_patch_comments_disabled (st : Srv) (id : String) (flag : Bool)
    (user : PlatformUser) : Srv × Except AppErr Unit :=
  match alookup st.videos id with
  | none => (st, .error .videoNotFound)
  | some meta =>
    let admin := is_admin st user.provider user.id
    let owner := meta.uploaded_by_id = user.id ∧ meta.uploaded_by_provider = user.provider
    if ¬ owner ∧ ¬ (admin = true) then (st, .error .forbidden)
    else
      let updated := { meta with comments_disabled := flag }
      let st1 := { st with videos := ainsert st.videos id updated }
      (persist_video st1 updated, .ok ())

/-
media.rs stream_file lines 260..272 plus the Content-Type header of every
response it builds: the file name follows references_id one hop (falling
back to the item's own filename when the referenced id is gone), the
content type is the item's own content_type field.
-/
def stream_source (st : Srv) (meta : VideoMeta) : String × String :=
  let filename :=
    match meta.references_id with
    | some ref_id => ((alookup st.videos ref_id).map (·.filename)).getD meta.filename
    | none => meta.filename
  (filename, meta.content_type)

/-
The bytes actually fingerprinted by process_uploaded_file: the uploaded
bytes themselves, or ffmpeg's output when the transcode branch
(is_video_mime and not already video/mp4) runs.
-/
def transcoded (E : Ext) (mime : String) (bytes : Bytes) : Option Bytes :=
  if is_video_mime mime ∧ mime ≠ "video/mp4" then E.ffmpeg_convert bytes else some bytes

/-- Concrete external primitives used to run the pipeline on sample inputs. -/
def E0 : Ext :=
  { sha256_hex := fun b => "sha-" ++ toString b.length ++ "-" ++ toString (b.headD 0)
    tlsh_build := fun b => if 4 ≤ b.length then some ("tl-" ++ toString (b.getD 3 0)) else none
    tlsh_parse_ok := fun s => str_starts_with s "tl-"
    tlsh_diff := fun a b => if a = b then 0 else 200
    ffmpeg_convert := fun b => some b
    utf8_ok := fun _ => true
    svg_head_ok := fun _ => true }

/-- An 8-byte ISO-BMFF prefix: size box then the ftyp tag at offset 4. -/
def ftypBytes : Bytes := [0, 0, 0, 24, 0x66, 0x74, 0x79, 0x70]

/-- A PNG magic prefix (first 8 bytes of any PNG file). -/
def pngBytes : Bytes := [0x89, 0x50, 0x4E, 0x47, 0x0D, 0x0A, 0x1A, 0x0A]

/-- A sample user for witnesses. -/
def user0 : PlatformUser := { provider := "osu", id := 7, username := "alice" }

/-
Reduction of process_uploaded_file to process_hashed when all three
pre-fingerprint gates pass (the temp file exists, the magic check passes,
and a text upload is valid UTF-8); the two transcode cases are packaged
through the transcoded helper.
-/
theorem process_uploaded_file_gates_pass
    (E : Ext) (st : Srv) (temp_path base_mime title : String)
    (n u c : Bool) (user : PlatformUser) (fresh_id : String)
    (temp_bytes hashed : Bytes)
    (hfile : alookup st.files temp_path = some temp_bytes)
    (hmagic : verify_magic_bytes E (temp_bytes.take MAGIC_READ_BYTES) base_mime = true)
    (htext : is_text_mime base_mime = true → E.utf8_ok temp_bytes = true)
    (hconv : transcoded E base_mime temp_bytes = some hashed) :
    process_uploaded_file E st temp_path base_mime title n u c user fresh_id
      = (if is_video_mime base_mime ∧ base_mime ≠ "video/mp4" then
          process_hashed E
            { st with files := ainsert (aerase st.files temp_path) temp_path hashed }
            temp_path hashed "video/mp4" ".mp4" title n u c user fresh_id
        else
          process_hashed E st temp_path temp_bytes base_mime
            (extension_for_mime base_mime) title n u c user fresh_id) := by
  have htext2 : (is_text_mime base_mime && ! E.utf8_ok temp_bytes) = false := by
    by_cases ht : is_text_mime base_mime = true
    · simp [ht, htext ht]
    · simp [Bool.not_eq_true] at ht
      simp [ht]
  unfold process_uploaded_file
  split
  · next heq => rw [hfile] at heq; exact absurd heq (by simp)
  · next tb heq =>
    rw [hfile] at heq
    have h2 : temp_bytes = tb := Option.some.inj heq
    subst h2
    rw [hmagic, htext2]
    simp only [not_true_eq_false, Bool.false_eq_true, if_false]
    by_cases hv : is_video_mime base_mime ∧ base_mime ≠ "video/mp4"
    · have hff : E.ffmpeg_convert temp_bytes = some hashed := by
        rw [transcoded, if_pos hv] at hconv
        exact hconv
      rw [if_pos hv, if_pos hv, hff]
    · rw [if_neg hv, if_neg hv]

/-- process_hashed on an exact-hash hit: delete the temp file and reject. -/
theorem process_hashed_dup
    (E : Ext) (st : Srv) (temp_path : String) (bytes : Bytes)
    (base_mime ext title : String) (n u c : Bool) (user : PlatformUser)
    (fresh_id existing_id : String)
    (hdup : alookup st.video_hashes (E.sha256_hex bytes) = some existing_id) :
    process_hashed E st temp_path bytes base_mime ext title n u c user fresh_id
      = ({ st with files := aerase st.files temp_path },
         .failed (.duplicateVideo existing_id)) := by
  unfold process_hashed
  simp only [hdup]

/--
C2: an upload whose exact digest is already in the exact-hash index is
rejected as a DuplicateVideo naming the existing owner's id; the only state
change is the deletion of the temp file — catalog, both indices and the
persisted metadata records are untouched, so the index still maps the
digest to the one existing owning item.
-/
theorem c2_exact_duplicate_rejected
    (E : Ext) (st : Srv) (temp_path base_mime title : String)
    (n u c : Bool) (user : PlatformUser) (fresh_id : String)
    (temp_bytes hashed_bytes : Bytes) (existing_id : String)
    (hfile : alookup st.files temp_path = some temp_bytes)
    (hmagic : verify_magic_bytes E (temp_bytes.take MAGIC_READ_BYTES) base_mime = true)
    (htext : is_text_mime base_mime = true → E.utf8_ok temp_bytes = true)
    (hconv : transcoded E base_mime temp_bytes = some hashed_bytes)
    (hdup : alookup st.video_hashes (E.sha256_hex hashed_bytes) = some existing_id) :
    process_uploaded_file E st temp_path base_mime title n u c user fresh_id
      = ({ st with files := aerase st.files temp_path },
         .failed (.duplicateVideo existing_id)) := by
  rw [process_uploaded_file_gates_pass E st temp_path base_mime title n u c user
    fresh_id temp_bytes hashed_bytes hfile hmagic htext hconv]
  by_cases hv : is_video_mime base_mime ∧ base_mime ≠ "video/mp4"
  · have hdup2 : alookup
        ({ st with files := ainsert (aerase st.files temp_path) temp_path hashed_bytes } : Srv).video_hashes
        (E.sha256_hex hashed_bytes) = some existing_id := hdup
    rw [if_pos hv, process_hashed_dup E _ temp_path hashed_bytes _ _ title n u c
      user fresh_id existing_id hdup2]
    rw [aerase_ainsert_self, aerase_aerase]
  · have hb : hashed_bytes = temp_bytes := by
      rw [transcoded, if_neg hv] at hconv
      exact (Option.some.injEq _ _ ▸ hconv).symm
    rw [hb] at hdup
    rw [if_neg hv, process_hashed_dup E st temp_path temp_bytes _ _ title n u c
      user fresh_id existing_id hdup]

/-- process_hashed on a fuzzy-index hit (no exact hit, tlsh built, similar entry found): commit a referencing item. -/
theorem process_hashed_ref
    (E : Ext) (st : Srv) (temp_path : String) (bytes : Bytes)
    (base_mime ext title : String) (n u c : Bool) (user : PlatformUser)
    (fresh_id original_id t : String)
    (hnodup : alookup st.video_hashes (E.sha256_hex bytes) = none)
    (hvm : is_video_mime base_mime = true)
    (htl : E.tlsh_build bytes = some t)
    (hsim : find_similar_tlsh E st.video_tlsh t = some original_id) :
    process_hashed E st temp_path bytes base_mime ext title n u c user fresh_id
      = ((commit_reference st temp_path original_id base_mime title bytes.length
            n u c user (E.sha256_hex bytes) (some t) fresh_id).1,
         .created true (some original_id)
           (commit_reference st temp_path original_id base_mime title bytes.length
             n u c user (E.sha256_hex bytes) (some t) fresh_id).2) := by
  unfold process_hashed
  simp only [hnodup, hvm, htl, hsim, if_true]

/-- Evaluation of commit_reference when the referenced original is still in the catalog. -/
theorem commit_reference_eq
    (st : Srv) (temp_path original_id base_mime title : String) (size : Nat)
    (n u c : Bool) (user : PlatformUser) (sha : String) (tl : Option String)
    (fresh_id : String) (om : VideoMeta)
    (hom : alookup st.videos original_id = some om) :
    commit_reference st temp_path original_id base_mime title size n u c user
        sha tl fresh_id
      = ({ st with
            files := aerase st.files temp_path
            videos := ainsert st.videos fresh_id
              { id := fresh_id, title := title, filename := om.filename
                content_type := base_mime, size_bytes := size
                sha256 := sha, tlsh_hash := tl
                uploaded_by_provider := user.provider, uploaded_by_id := user.id
                uploaded_by_name := user.username
                nsfw := n, unlisted := u, comments_disabled := c
                references_id := some original_id }
            meta_files := ainsert st.meta_files fresh_id
              { id := fresh_id, title := title, filename := om.filename
                content_type := base_mime, size_bytes := size
                sha256 := sha, tlsh_hash := tl
                uploaded_by_provider := user.provider, uploaded_by_id := user.id
                uploaded_by_name := user.username
                nsfw := n, unlisted := u, comments_disabled := c
                references_id := some original_id } },
         { id := fresh_id, title := title, filename := om.filename
           content_type := base_mime, size_bytes := size
           sha256 := sha, tlsh_hash := tl
           uploaded_by_provider := user.provider, uploaded_by_id := user.id
           uploaded_by_name := user.username
           nsfw := n, unlisted := u, comments_disabled := c
           references_id := some original_id }) := by
  unfold commit_reference persist_video
  simp only [hom]
  rfl

/--
C3: an upload that is not an exact duplicate but whose fuzzy digest matches
an existing owning item within the threshold is committed as a referencing
item: fresh id, its own title/flags/owner, references_id set to the match,
temp bytes deleted (no second copy stored), both hash indices untouched,
and stream_file resolves the new item to the original's file.
-/
theorem c3_fuzzy_duplicate_links
    (E : Ext) (st : Srv) (temp_path base_mime title : String)
    (n u c : Bool) (user : PlatformUser) (fresh_id : String)
    (temp_bytes hashed : Bytes) (t original_id : String) (om : VideoMeta)
    (hfile : alookup st.files temp_path = some temp_bytes)
    (hmagic : verify_magic_bytes E (temp_bytes.take MAGIC_READ_BYTES) base_mime = true)
    (hvideo : is_video_mime base_mime = true)
    (hconv : transcoded E base_mime temp_bytes = some hashed)
    (hnodup : alookup st.video_hashes (E.sha256_hex hashed) = none)
    (htl : E.tlsh_build hashed = some t)
    (hsim : find_similar_tlsh E st.video_tlsh t = some original_id)
    (hom : alookup st.videos original_id = some om)
    (hfresh : alookup st.videos fresh_id = none) :
    process_uploaded_file E st temp_path base_mime title n u c user fresh_id
      = ({ st with
            files := aerase st.files temp_path
            videos := ainsert st.videos fresh_id
              { id := fresh_id, title := title, filename := om.filename
                content_type := "video/mp4", size_bytes := hashed.length
                sha256 := E.sha256_hex hashed, tlsh_hash := some t
                uploaded_by_provider := user.provider, uploaded_by_id := user.id
                uploaded_by_name := user.username
                nsfw := n, unlisted := u, comments_disabled := c
                references_id := some original_id }
            meta_files := ainsert st.meta_files fresh_id
              { id := fresh_id, title := title, filename := om.filename
                content_type := "video/mp4", size_bytes := hashed.length
                sha256 := E.sha256_hex hashed, tlsh_hash := some t
                uploaded_by_provider := user.provider, uploaded_by_id := user.id
                uploaded_by_name := user.username
                nsfw := n, unlisted := u, comments_disabled := c
                references_id := some original_id } },
         .created true (some original_id)
           { id := fresh_id, title := title, filename := om.filename
             content_type := "video/mp4", size_bytes := hashed.length
             sha256 := E.sha256_hex hashed, tlsh_hash := some t
             uploaded_by_provider := user.provider, uploaded_by_id := user.id
             uploaded_by_name := user.username
             nsfw := n, unlisted := u, comments_disabled := c
             references_id := some original_id })
      ∧ (stream_source
           (process_uploaded_file E st temp_path base_mime title n u c user fresh_id).1
           { id := fresh_id, title := title, filename := om.filename
             content_type := "video/mp4", size_bytes := hashed.length
             sha256 := E.sha256_hex hashed, tlsh_hash := some t
             uploaded_by_provider := user.provider, uploaded_by_id := user.id
             uploaded_by_name := user.username
             nsfw := n, unlisted := u, comments_disabled := c
             references_id := some original_id }).1 = om.filename := by
  have htext : is_text_mime base_mime = true → E.utf8_ok temp_bytes = true := by
    intro ht
    rw [is_text_mime, decide_eq_true_eq] at ht
    rw [ht] at hvideo
    exact absurd hvideo (by decide)
  have horigne : original_id ≠ fresh_id := by
    intro hh
    rw [hh, hfresh] at hom
    exact absurd hom (by simp)
  have hmain : process_uploaded_file E st temp_path base_mime title n u c user fresh_id
      = ({ st with
            files := aerase st.files temp_path
            videos := ainsert st.videos fresh_id
              { id := fresh_id, title := title, filename := om.filename
                content_type := "video/mp4", size_bytes := hashed.length
                sha256 := E.sha256_hex hashed, tlsh_hash := some t
                uploaded_by_provider := user.provider, uploaded_by_id := user.id
                uploaded_by_name := user.username
                nsfw := n, unlisted := u, comments_disabled := c
                references_id := some original_id }
            meta_files := ainsert st.meta_files fresh_id
              { id := fresh_id, title := title, filename := om.filename
                content_type := "video/mp4", size_bytes := hashed.length
                sha256 := E.sha256_hex hashed, tlsh_hash := some t
                uploaded_by_provider := user.provider, uploaded_by_id := user.id
                uploaded_by_name := user.username
                nsfw := n, unlisted := u, comments_disabled := c
                references_id := some original_id } },
         .created true (some original_id)
           { id := fresh_id, title := title, filename := om.filename
             content_type := "video/mp4", size_bytes := hashed.length
             sha256 := E.sha256_hex hashed, tlsh_hash := some t
             uploaded_by_provider := user.provider, uploaded_by_id := user.id
             uploaded_by_name := user.username
             nsfw := n, unlisted := u, comments_disabled := c
             references_id := some original_id }) := by
    rw [process_uploaded_file_gates_pass E st temp_path base_mime title n u c user
      fresh_id temp_bytes hashed hfile hmagic htext hconv]
    by_cases hv : is_video_mime base_mime ∧ base_mime ≠ "video/mp4"
    · rw [if_pos hv]
      have hsr : alookup
          ({ st with files := ainsert (aerase st.files temp_path) temp_path hashed } : Srv).video_hashes
          (E.sha256_hex hashed) = none := hnodup
      rw [process_hashed_ref E _ temp_path hashed _ _ title n u c user fresh_id
        original_id t hsr (by decide) htl hsim]
      have hom2 : alookup
          ({ st with files := ainsert (aerase st.files temp_path) temp_path hashed } : Srv).videos
          original_id = some om := hom
      rw [commit_reference_eq _ temp_path original_id _ title hashed.length
        n u c user _ (some t) fresh_id om hom2]
      rw [aerase_ainsert_self, aerase_aerase]
    · have hmp4 : base_mime = "video/mp4" := by
        by_contra hne
        exact hv ⟨hvideo, hne⟩
      have hb : hashed = temp_bytes := by
        rw [transcoded, if_neg hv] at hconv
        exact (Option.some.inj hconv).symm
      subst hmp4
      rw [if_neg hv]
      rw [← hb]
      rw [process_hashed_ref E st temp_path hashed _ _ title n u c user fresh_id
        original_id t hnodup (by decide) htl hsim]
      rw [commit_reference_eq st temp_path original_id _ title hashed.length
        n u c user _ (some t) fresh_id om hom]
  refine ⟨hmain, ?_⟩
  rw [hmain]
  unfold stream_source
  simp only [alookup_ainsert_ne _ fresh_id original_id _ horigne, hom]
  rfl

/-- Instantiation of c3 at a concrete state: a near-duplicate video commits as a referencing item resolving to the original's file. -/
theorem c3_witness :
    process_uploaded_file E0
      { initSrv with
          files := [("tmp_t2.mp4", ftypBytes ++ [7])]
          videos := [("id1",
            { id := "id1", title := "first", filename := "id1.mp4"
              content_type := "video/mp4", size_bytes := 8
              sha256 := "sha-8-0", tlsh_hash := some "tl-24"
              uploaded_by_provider := "osu", uploaded_by_id := 7
              uploaded_by_name := "alice", nsfw := false, unlisted := false
              comments_disabled := true, references_id := none })]
          video_hashes := [("sha-8-0", "id1")]
          video_tlsh := [("id1", "tl-24")] }
      "tmp_t2.mp4" "video/mp4" "second" false false true user0 "id2"
      = ({ initSrv with
            files := []
            videos := ainsert [("id1",
              { id := "id1", title := "first", filename := "id1.mp4"
                content_type := "video/mp4", size_bytes := 8
                sha256 := "sha-8-0", tlsh_hash := some "tl-24"
                uploaded_by_provider := "osu", uploaded_by_id := 7
                uploaded_by_name := "alice", nsfw := false, unlisted := false
                comments_disabled := true, references_id := none })] "id2"
              { id := "id2", title := "second", filename := "id1.mp4"
                content_type := "video/mp4", size_bytes := 9
                sha256 := "sha-9-0", tlsh_hash := some "tl-24"
                uploaded_by_provider := "osu", uploaded_by_id := 7
                uploaded_by_name := "alice", nsfw := false, unlisted := false
                comments_disabled := true, references_id := some "id1" }
            video_hashes := [("sha-8-0", "id1")]
            video_tlsh := [("id1", "tl-24")]
            meta_files := ainsert [] "id2"
              { id := "id2", title := "second", filename := "id1.mp4"
                content_type := "video/mp4", size_bytes := 9
                sha256 := "sha-9-0", tlsh_hash := some "tl-24"
                uploaded_by_provider := "osu", uploaded_by_id := 7
                uploaded_by_name := "alice", nsfw := false, unlisted := false
                comments_disabled := true, references_id := some "id1" } },
         .created true (some "id1")
           { id := "id2", title := "second", filename := "id1.mp4"
             content_type := "video/mp4", size_bytes := 9
             sha256 := "sha-9-0", tlsh_hash := some "tl-24"
             uploaded_by_provider := "osu", uploaded_by_id := 7
             uploaded_by_name := "alice", nsfw := false, unlisted := false
             comments_disabled := true, references_id := some "id1" }) := by
  have h := c3_fuzzy_duplicate_links E0
    { initSrv with
        files := [("tmp_t2.mp4", ftypBytes ++ [7])]
        videos := [("id1",
          { id := "id1", title := "first", filename := "id1.mp4"
            content_type := "video/mp4", size_bytes := 8
            sha256 := "sha-8-0", tlsh_hash := some "tl-24"
            uploaded_by_provider := "osu", uploaded_by_id := 7
            uploaded_by_name := "alice", nsfw := false, unlisted := false
            comments_disabled := true, references_id := none })]
        video_hashes := [("sha-8-0", "id1")]
        video_tlsh := [("id1", "tl-24")] }
    "tmp_t2.mp4" "video/mp4" "second" false false true user0 "id2"
    (ftypBytes ++ [7]) (ftypBytes ++ [7]) "tl-24" "id1"
    { id := "id1", title := "first", filename := "id1.mp4"
      content_type := "video/mp4", size_bytes := 8
      sha256 := "sha-8-0", tlsh_hash := some "tl-24"
      uploaded_by_provider := "osu", uploaded_by_id := 7
      uploaded_by_name := "alice", nsfw := false, unlisted := false
      comments_disabled := true, references_id := none }
    (by decide) (by decide) (by decide) (by decide) (by decide) (by decide)
    (by decide) (by decide) (by decide)
  exact h.1.trans (by decide)

/-- process_hashed with no exact hit and no fuzzy match commits a new owning item. -/
theorem process_hashed_new
    (E : Ext) (st : Srv) (temp_path : String) (bytes : Bytes)
    (base_mime ext title : String) (n u c : Bool) (user : PlatformUser)
    (fresh_id : String)
    (hnodup : alookup st.video_hashes (E.sha256_hex bytes) = none)
    (hsim : (match (if is_video_mime base_mime = true then E.tlsh_build bytes else none) with
             | some x => find_similar_tlsh E st.video_tlsh x
             | none => none) = none) :
    process_hashed E st temp_path bytes base_mime ext title n u c user fresh_id
      = ((commit_new_owner st temp_path bytes base_mime ext title n u c user
            (E.sha256_hex bytes)
            (if is_video_mime base_mime = true then E.tlsh_build bytes else none)
            fresh_id).1,
         .created false none
           (commit_new_owner st temp_path bytes base_mime ext title n u c user
             (E.sha256_hex bytes)
             (if is_video_mime base_mime = true then E.tlsh_build bytes else none)
             fresh_id).2) := by
  unfold process_hashed
  simp only [hnodup, hsim]

/-- The new-owner commit leaves the committed record both in the catalog and in its metadata file. -/
theorem commit_new_owner_lookups
    (st : Srv) (temp_path : String) (bytes : Bytes)
    (base_mime ext title : String) (n u c : Bool) (user : PlatformUser)
    (sha : String) (tl : Option String) (video_id : String) :
    alookup (commit_new_owner st temp_path bytes base_mime ext title n u c user
        sha tl video_id).1.videos
      (commit_new_owner st temp_path bytes base_mime ext title n u c user
        sha tl video_id).2.id
      = some (commit_new_owner st temp_path bytes base_mime ext title n u c user
          sha tl video_id).2
    ∧ alookup (commit_new_owner st temp_path bytes base_mime ext title n u c user
        sha tl video_id).1.meta_files
      (commit_new_owner st temp_path bytes base_mime ext title n u c user
        sha tl video_id).2.id
      = some (commit_new_owner st temp_path bytes base_mime ext title n u c user
          sha tl video_id).2 := by
  unfold commit_new_owner persist_video
  cases tl <;> simp

/-- The referencing commit leaves the committed record both in the catalog and in its metadata file. -/
theorem commit_reference_lookups
    (st : Srv) (temp_path original_id base_mime title : String) (size : Nat)
    (n u c : Bool) (user : PlatformUser) (sha : String) (tl : Option String)
    (video_id : String) :
    alookup (commit_reference st temp_path original_id base_mime title size
        n u c user sha tl video_id).1.videos
      (commit_reference st temp_path original_id base_mime title size
        n u c user sha tl video_id).2.id
      = some (commit_reference st temp_path original_id base_mime title size
          n u c user sha tl video_id).2
    ∧ alookup (commit_reference st temp_path original_id base_mime title size
        n u c user sha tl video_id).1.meta_files
      (commit_reference st temp_path original_id base_mime title size
        n u c user sha tl video_id).2.id
      = some (commit_reference st temp_path original_id base_mime title size
          n u c user sha tl video_id).2 := by
  unfold commit_reference persist_video
  simp

/-- Every successful run of process_hashed leaves the returned record in both the catalog and the metadata files. -/
theorem process_hashed_created_persisted
    (E : Ext) (st : Srv) (temp_path : String) (bytes : Bytes)
    (base_mime ext title : String) (n u c : Bool) (user : PlatformUser)
    (fresh_id : String) (st2 : Srv) (d : Bool) (o : Option String)
    (meta : VideoMeta)
    (h : process_hashed E st temp_path bytes base_mime ext title n u c user
        fresh_id = (st2, .created d o meta)) :
    alookup st2.videos meta.id = some meta
      ∧ alookup st2.meta_files meta.id = some meta := by
  rcases hdup : alookup st.video_hashes (E.sha256_hex bytes) with _ | ex
  · rcases hsim : (match (if is_video_mime base_mime = true then E.tlsh_build bytes else none) with
                   | some x => find_similar_tlsh E st.video_tlsh x
                   | none => none) with _ | orig
    · rw [process_hashed_new E st temp_path bytes base_mime ext title n u c user
        fresh_id hdup hsim] at h
      injection h with h1 h2
      injection h2 with hd ho hm
      subst h1
      subst hm
      exact commit_new_owner_lookups st temp_path bytes base_mime ext title
        n u c user (E.sha256_hex bytes) _ fresh_id
    · rcases hvm : is_video_mime base_mime with _ | _
      · rw [hvm] at hsim
        simp at hsim
      · rcases htl : E.tlsh_build bytes with _ | t
        · rw [hvm, htl] at hsim
          simp at hsim
        · rw [hvm, htl] at hsim
          simp only [if_true] at hsim
          rw [process_hashed_ref E st temp_path bytes base_mime ext title n u c
            user fresh_id orig t hdup hvm htl hsim] at h
          injection h with h1 h2
          injection h2 with hd ho hm
          subst h1
          subst hm
          exact commit_reference_lookups st temp_path orig base_mime title
            bytes.length n u c user (E.sha256_hex bytes) (some t) fresh_id
  · rw [process_hashed_dup E st temp_path bytes base_mime ext title n u c user
      fresh_id ex hdup] at h
    exact absurd (congrArg Prod.snd h) (by simp)

/--
C5: every successfully returned mutation leaves the in-memory catalog entry
and the on-disk metadata record identical: (1) whenever
process_uploaded_file returns a Created result, the returned record is in
the catalog and in the metadata files under its id; (2) handle_patch_nsfw
persists the updated record before returning Ok; (3)
handle_patch_comments_disabled does the same for an owner or admin caller.
-/
theorem c5_commit_persists_before_return :
    (∀ (E : Ext) (st : Srv) (temp_path base_mime title : String) (n u c : Bool)
      (user : PlatformUser) (fresh_id : String) (st2 : Srv) (d : Bool)
      (o : Option String) (meta : VideoMeta),
      process_uploaded_file E st temp_path base_mime title n u c user fresh_id
          = (st2, .created d o meta) →
      alookup st2.videos meta.id = some meta
        ∧ alookup st2.meta_files meta.id = some meta)
    ∧ (∀ (st : Srv) (id : String) (b : Bool) (v : VideoMeta),
      alookup st.videos id = some v → v.id = id →
      (handle_patch_nsfw st id b).2 = .ok ()
        ∧ alookup (handle_patch_nsfw st id b).1.videos id = some { v with nsfw := b }
        ∧ alookup (handle_patch_nsfw st id b).1.meta_files id = some { v with nsfw := b })
    ∧ (∀ (st : Srv) (id : String) (b : Bool) (user : PlatformUser) (v : VideoMeta),
      alookup st.videos id = some v → v.id = id →
      (v.uploaded_by_id = user.id ∧ v.uploaded_by_provider = user.provider) →
      (handle_patch_comments_disabled st id b user).2 = .ok ()
        ∧ alookup (handle_patch_comments_disabled st id b user).1.videos id
            = some { v with comments_disabled := b }
        ∧ alookup (handle_patch_comments_disabled st id b user).1.meta_files id
            = some { v with comments_disabled := b }) := by
  refine ⟨?_, ?_, ?_⟩
  · intro E st temp_path base_mime title n u c user fresh_id st2 d o meta h
    unfold process_uploaded_file at h
    split at h
    · exact absurd (congrArg Prod.snd h) (by simp)
    · split at h
      · exact absurd (congrArg Prod.snd h) (by simp)
      · split at h
        · exact absurd (congrArg Prod.snd h) (by simp)
        · split at h
          · split at h
            · exact absurd (congrArg Prod.snd h) (by simp)
            · exact process_hashed_created_persisted _ _ _ _ _ _ _ _ _ _ _ _ _ _ _ _ h
          · exact process_hashed_created_persisted _ _ _ _ _ _ _ _ _ _ _ _ _ _ _ _ h
  · intro st id b v hv hid
    unfold handle_patch_nsfw persist_video
    simp [hv, hid]
  · intro st id b user v hv hid hown
    unfold handle_patch_comments_disabled persist_video
    simp [hv, hid, hown.1, hown.2]

/-- The record committed by the c5 witness upload. -/
def c5_meta : VideoMeta :=
  { id := "idT", title := "note", filename := "idT.txt"
    content_type := "text/plain", size_bytes := 4
    sha256 := "sha-4-104", tlsh_hash := none
    uploaded_by_provider := "osu", uploaded_by_id := 7
    uploaded_by_name := "alice", nsfw := false, unlisted := false
    comments_disabled := true, references_id := none }

/-- The state produced by the c5 witness upload. -/
def c5_state : Srv :=
  { initSrv with
      videos := [("idT", c5_meta)]
      video_hashes := [("sha-4-104", "idT")]
      files := [("idT.txt", [104, 105, 106, 107])]
      meta_files := [("idT", c5_meta)] }

/-- Instantiation of c5: the three mutation paths on a concrete state, persisted on return. -/
theorem c5_witness :
    (alookup c5_state.videos c5_meta.id = some c5_meta
      ∧ alookup c5_state.meta_files c5_meta.id = some c5_meta)
    ∧ ((handle_patch_nsfw c5_state "idT" true).2 = .ok ()
      ∧ alookup (handle_patch_nsfw c5_state "idT" true).1.videos "idT"
          = some { c5_meta with nsfw := true }
      ∧ alookup (handle_patch_nsfw c5_state "idT" true).1.meta_files "idT"
          = some { c5_meta with nsfw := true })
    ∧ ((handle_patch_comments_disabled c5_state "idT" false user0).2 = .ok ()
      ∧ alookup (handle_patch_comments_disabled c5_state "idT" false user0).1.videos "idT"
          = some { c5_meta with comments_disabled := false }
      ∧ alookup (handle_patch_comments_disabled c5_state "idT" false user0).1.meta_files "idT"
          = some { c5_meta with comments_disabled := false }) :=
  ⟨c5_commit_persists_before_return.1 E0
      { initSrv with files := [("tmp_a.txt", [104, 105, 106, 107])] }
      "tmp_a.txt" "text/plain" "note" false false true user0 "idT"
      c5_state false none c5_meta (by decide),
   c5_commit_persists_before_return.2.1 c5_state "idT" true c5_meta
      (by decide) (by decide),
   c5_commit_persists_before_return.2.2 c5_state "idT" false user0 c5_meta
      (by decide) (by decide) (by decide)⟩

/-- Instantiation of c2 at a concrete state: the second upload of the ftyp sample is rejected, naming the first item's id. -/
theorem c2_witness :
    process_uploaded_file E0
      { initSrv with
          files := [("tmp_t2.mp4", ftypBytes)]
          video_hashes := [("sha-8-0", "id1")] }
      "tmp_t2.mp4" "video/mp4" "again" false false true user0 "id2"
      = ({ initSrv with
            files := []
            video_hashes := [("sha-8-0", "id1")] },
         .failed (.duplicateVideo "id1")) := by
  have h := c2_exact_duplicate_rejected E0
    { initSrv with
        files := [("tmp_t2.mp4", ftypBytes)]
        video_hashes := [("sha-8-0", "id1")] }
    "tmp_t2.mp4" "video/mp4" "again" false false true user0 "id2"
    ftypBytes ftypBytes "id1"
    (by decide) (by decide) (by decide) (by decide) (by decide)
  simpa using h

/--
C8: magic-byte validation rejects every MIME outside the known signature
list, and an upload whose prefix fails the magic check is rejected as
MagicMismatch with the temp file deleted and no other state change (no
catalog entry, no index entry, no final file); in particular a PNG prefix
declared video/mp4 fails the check.
-/
theorem c8_magic_rejection :
    (∀ (E : Ext) (bytes : Bytes) (mime : String),
      mime ∉ magic_known_mimes → verify_magic_bytes E bytes mime = false)
    ∧ (∀ (E : Ext) (st : Srv) (temp_path base_mime title : String)
        (n u c : Bool) (user : PlatformUser) (fresh_id : String)
        (temp_bytes : Bytes),
      alookup st.files temp_path = some temp_bytes →
      verify_magic_bytes E (temp_bytes.take MAGIC_READ_BYTES) base_mime = false →
      process_uploaded_file E st temp_path base_mime title n u c user fresh_id
        = ({ st with files := aerase st.files temp_path }, .failed .magicMismatch))
    ∧ verify_magic_bytes E0 pngBytes "video/mp4" = false := by
  refine ⟨?_, ?_, by decide⟩
  · intro E bytes mime h
    simp only [magic_known_mimes, List.mem_cons, List.not_mem_nil, or_false,
      not_or] at h
    obtain ⟨h1, h2, h3, h4, h5, h6, h7, h8, h9, h10, h11, h12, h13, h14, h15,
      h16, h17, h18, h19⟩ := h
    unfold verify_magic_bytes
    by_cases hlen : bytes.length < 4
    · simp [hlen]
    · simp [hlen, h1, h2, h3, h4, h5, h6, h7, h8, h9, h10, h11, h12, h13, h14,
        h15, h16, h17, h18, h19]
  · intro E st temp_path base_mime title n u c user fresh_id temp_bytes hfile hmagic
    unfold process_uploaded_file
    split
    · next heq => rw [hfile] at heq; exact absurd heq (by simp)
    · next tb heq =>
      rw [hfile] at heq
      have h2 : temp_bytes = tb := Option.some.inj heq
      subst h2
      rw [hmagic]
      simp

/-- Instantiation of c8: an unknown MIME is rejected, and a PNG-prefixed upload declared video/mp4 is rejected with only the temp file removed. -/
theorem c8_witness :
    verify_magic_bytes E0 [0, 1, 2, 3] "application/pdf" = false
      ∧ process_uploaded_file E0 { initSrv with files := [("tmp_p.mp4", pngBytes)] }
          "tmp_p.mp4" "video/mp4" "spoof" false false true user0 "idP"
        = ({ initSrv with files := [] }, .failed .magicMismatch) :=
  ⟨c8_magic_rejection.1 E0 [0, 1, 2, 3] "application/pdf" (by decide),
   (c8_magic_rejection.2.1 E0 { initSrv with files := [("tmp_p.mp4", pngBytes)] }
      "tmp_p.mp4" "video/mp4" "spoof" false false true user0 "idP" pngBytes
      (by decide) (by decide)).trans (by decide)⟩

/-- The referencing item used in the C4 scenarios. -/
def c4_metaR : VideoMeta :=
  { id := "R", title := "ref", filename := "O.mp4"
    content_type := "video/mp4", size_bytes := 3
    sha256 := "h", tlsh_hash := some "tlO"
    uploaded_by_provider := "osu", uploaded_by_id := 7
    uploaded_by_name := "alice", nsfw := false, unlisted := false
    comments_disabled := true, references_id := some "O" }

/-- The owning item used in the C4 scenarios. -/
def c4_metaO : VideoMeta :=
  { id := "O", title := "orig", filename := "O.mp4"
    content_type := "video/mp4", size_bytes := 3
    sha256 := "h", tlsh_hash := some "tlO"
    uploaded_by_provider := "osu", uploaded_by_id := 7
    uploaded_by_name := "alice", nsfw := false, unlisted := false
    comments_disabled := true, references_id := none }

/--
C4 counterexample state: the original owning item O has already been
deleted; R is the last referencing item, still pointing at O, while the
exact-hash entry, the fuzzy-hash entry and the backing file of O are still
present (exactly the state handle_delete leaves after deleting O while R
existed).
-/
def c4_state : Srv :=
  { initSrv with
      videos := [("R", c4_metaR)],
      video_hashes := [("h", "O")],
      video_tlsh := [("O", "tlO")],
      files := [("O.mp4", [1, 2, 3])] }

/--
C4 counterexample: deleting the LAST referencing item does NOT delete the
backing file or either hash-index entry — the guard in handle_delete only
garbage-collects when the deleted item itself is non-referencing, so after
deleting R (the last referrer of the already-deleted owner O) the file
O.mp4 and both index entries remain, contradicting the claim that deleting
the last referencing item deletes the backing file and both index entries.
-/
theorem c4_counterexample :
    (handle_delete c4_state "R").1.videos = []
      ∧ (handle_delete c4_state "R").1.files = [("O.mp4", [1, 2, 3])]
      ∧ (handle_delete c4_state "R").1.video_hashes = [("h", "O")]
      ∧ (handle_delete c4_state "R").1.video_tlsh = [("O", "tlO")]
      ∧ (handle_delete c4_state "R").2 = .ok "h" :=
  ⟨rfl, rfl, rfl, rfl, rfl⟩

/--
C4 (amended): deleting a non-referencing item with a remaining referrer
removes only the catalog entry and metadata file; deleting a
non-referencing item with no remaining referrer also removes the backing
file and both index entries; deleting a REFERENCING item never removes the
backing file or any index entry, even when it is the last referrer.
-/
theorem c4_delete_gc :
    (∀ (st : Srv) (id : String) (meta : VideoMeta),
      alookup st.videos id = some meta →
      meta.references_id = none →
      ((aerase st.videos id).any fun e => e.2.references_id == some id) = true →
      handle_delete st id
        = ({ st with
              videos := aerase st.videos id,
              meta_files := aerase st.meta_files id }, .ok meta.sha256))
    ∧ (∀ (st : Srv) (id : String) (meta : VideoMeta),
      alookup st.videos id = some meta →
      meta.references_id = none →
      ((aerase st.videos id).any fun e => e.2.references_id == some id) = false →
      handle_delete st id
        = ({ st with
              videos := aerase st.videos id,
              meta_files := aerase st.meta_files id,
              video_hashes := aerase st.video_hashes meta.sha256,
              video_tlsh := aerase st.video_tlsh id,
              files := aerase st.files meta.filename }, .ok meta.sha256))
    ∧ (∀ (st : Srv) (id : String) (meta : VideoMeta) (o : String),
      alookup st.videos id = some meta →
      meta.references_id = some o →
      handle_delete st id
        = ({ st with
              videos := aerase st.videos id,
              meta_files := aerase st.meta_files id }, .ok meta.sha256)) := by
  refine ⟨?_, ?_, ?_⟩
  · intro st id meta hv href hany
    unfold handle_delete delete_video_meta
    simp only [hv, href, hany]
    simp
  · intro st id meta hv href hany
    unfold handle_delete delete_video_meta
    simp only [hv, href, hany]
    simp
  · intro st id meta o hv href
    unfold handle_delete delete_video_meta
    simp only [hv, href]
    simp

/-- Instantiation of c4_delete_gc on concrete states for all three delete behaviours. -/
theorem c4_witness :
    handle_delete { c4_state with videos := ("O", c4_metaO) :: c4_state.videos } "O"
      = ({ c4_state with meta_files := [] }, .ok "h")
    ∧ handle_delete
        { initSrv with
            videos := [("O", c4_metaO)],
            video_hashes := [("h", "O")],
            video_tlsh := [("O", "tlO")],
            files := [("O.mp4", [1, 2, 3])] }
        "O"
      = (initSrv, .ok "h")
    ∧ handle_delete c4_state "R"
      = ({ c4_state with videos := [] }, .ok "h") := by
  refine ⟨?_, ?_, ?_⟩
  · exact (c4_delete_gc.1
      { c4_state with videos := ("O", c4_metaO) :: c4_state.videos } "O" c4_metaO
      (by decide) (by decide) (by decide)).trans (by decide)
  · exact (c4_delete_gc.2.1
      { initSrv with
          videos := [("O", c4_metaO)],
          video_hashes := [("h", "O")],
          video_tlsh := [("O", "tlO")],
          files := [("O.mp4", [1, 2, 3])] }
      "O" c4_metaO
      (by decide) (by decide) (by decide)).trans (by decide)
  · exact (c4_delete_gc.2.2 c4_state "R" c4_metaR "O"
      (by decide) (by decide)).trans (by decide)


/--
C10: complete_upload with an existing upload id but a non-owner principal
returns VideoNotFound AFTER having already removed the session from the
store (the chunk directory stays on disk), so the error is not side-effect
free: afterwards neither a complete nor a chunk write by the legitimate
owner can succeed on that upload id.
-/
theorem c10_complete_not_side_effect_free
    (E : Ext) (st : Srv) (upload_id title0 : String)
    (nsfw unlisted cd : Option Bool) (user : PlatformUser)
    (allowed_types : List String) (temp_id fresh_id : String)
    (s : UploadSession)
    (htitle1 : (str_trim title0).isEmpty = false)
    (htitle2 : (str_trim title0).length ≤ 200)
    (hs : alookup st.upload_sessions upload_id = some s)
    (hmm : s.user_id ≠ user.id ∨ s.user_provider ≠ user.provider) :
    handle_complete_upload E st upload_id title0 nsfw unlisted cd user
        allowed_types temp_id fresh_id
      = ({ st with upload_sessions := aerase st.upload_sessions upload_id },
         .failed .videoNotFound)
    ∧ alookup (aerase st.upload_sessions upload_id) upload_id = none
    ∧ (∀ (E2 : Ext) (title2 : String) (n2 u2 c2 : Option Bool)
        (user2 : PlatformUser) (allowed2 : List String) (temp2 fresh2 : String),
        (str_trim title2).isEmpty = false → (str_trim title2).length ≤ 200 →
        handle_complete_upload E2
            { st with upload_sessions := aerase st.upload_sessions upload_id }
            upload_id title2 n2 u2 c2 user2 allowed2 temp2 fresh2
          = ({ st with upload_sessions := aerase st.upload_sessions upload_id },
             .failed .videoNotFound))
    ∧ (∀ (i : Nat) (data : Bytes) (user2 : PlatformUser),
        handle_upload_chunk
            { st with upload_sessions := aerase st.upload_sessions upload_id }
            upload_id i data user2
          = ({ st with upload_sessions := aerase st.upload_sessions upload_id },
             .error .videoNotFound)) := by
  have hti : ((str_trim title0).isEmpty
      || decide ((str_trim title0).length > 200)) = false := by
    simp [htitle1, Nat.not_lt]
    exact htitle2
  have herased : alookup (aerase st.upload_sessions upload_id) upload_id = none :=
    alookup_aerase_self st.upload_sessions upload_id
  refine ⟨?_, herased, ?_, ?_⟩
  · unfold handle_complete_upload
    simp only [hti, Bool.false_eq_true, if_false, hs]
    rw [if_pos hmm]
  · intro E2 title2 n2 u2 c2 user2 allowed2 temp2 fresh2 ht1 ht2
    have hti2 : ((str_trim title2).isEmpty
        || decide ((str_trim title2).length > 200)) = false := by
      simp [ht1, Nat.not_lt]
      exact ht2
    unfold handle_complete_upload
    simp only [hti2, Bool.false_eq_true, if_false, herased]
  · intro i data user2
    unfold handle_upload_chunk
    simp only [herased]

/-- Instantiation of c10: bob's pending upload is consumed by alice's failed complete call. -/
theorem c10_witness :
    handle_complete_upload E0
        { initSrv with
            upload_sessions := [("up1",
              { user_provider := "osu", user_id := 8, content_type := "video/mp4"
                created_at := 0, chunk_count := 1 })]
            chunk_dirs := [("up1", [(0, [1, 2])])] }
        "up1" "steal" none none none user0 ["video/mp4"] "t9" "id9"
      = ({ initSrv with
            upload_sessions := []
            chunk_dirs := [("up1", [(0, [1, 2])])] },
         .failed .videoNotFound) := by
  have h := (c10_complete_not_side_effect_free E0
    { initSrv with
        upload_sessions := [("up1",
          { user_provider := "osu", user_id := 8, content_type := "video/mp4"
            created_at := 0, chunk_count := 1 })]
        chunk_dirs := [("up1", [(0, [1, 2])])] }
    "up1" "steal" none none none user0 ["video/mp4"] "t9" "id9"
    { user_provider := "osu", user_id := 8, content_type := "video/mp4"
      created_at := 0, chunk_count := 1 }
    (by decide) (by decide) (by decide) (by decide)).1
  exact h.trans (by decide)

/-- The chunk directory of an upload session, as handle_complete_upload reads it. -/
def session_chunks (st : Srv) (upload_id : String) : List (Nat × Bytes) :=
  (alookup st.chunk_dirs upload_id).getD []

/-- The recorded chunk count of an upload session (0 when absent). -/
def session_count (st : Srv) (upload_id : String) : Nat :=
  ((alookup st.upload_sessions upload_id).map (·.chunk_count)).getD 0

/-- The assembly step of handle_complete_upload on the current session state. -/
def complete_assembly (st : Srv) (upload_id : String) :
    Except (AppErr × Bytes) Bytes :=
  assemble_chunks (session_chunks st upload_id) (session_count st upload_id)

/-- Submitting a list of (index, bytes) chunks in order through handle_upload_chunk. -/
def submit_chunks (st : Srv) (upload_id : String) (user : PlatformUser)
    (l : List (Nat × Bytes)) : Srv :=
  l.foldl (fun s p => (handle_upload_chunk s upload_id p.1 p.2 user).1) st

theorem take_all_of_le {α : Type} (l : List α) (n : Nat) (h : l.length ≤ n) :
    l.take n = l := by
  induction l generalizing n with
  | nil => simp
  | cons a rest ih =>
    cases n with
    | zero => simp at h
    | succ m =>
      simp only [List.length_cons, Nat.succ_le_succ_iff] at h
      simp [List.take, ih m h]

/-- Full characterization of an authorized, under-cap chunk write. -/
theorem handle_upload_chunk_ok
    (st : Srv) (upload_id : String) (i : Nat) (d : Bytes)
    (user : PlatformUser) (s : UploadSession)
    (hs : alookup st.upload_sessions upload_id = some s)
    (howner : s.user_id = user.id ∧ s.user_provider = user.provider)
    (hsz : d.length ≤ MAX_CHUNK_BYTES) :
    handle_upload_chunk st upload_id i d user
      = ({ st with
            chunk_dirs := ainsert st.chunk_dirs upload_id
              (ainsert ((alookup st.chunk_dirs upload_id).getD []) i d),
            upload_sessions := ainsert st.upload_sessions upload_id
              { s with chunk_count := max s.chunk_count (i + 1) } },
         .ok d.length) := by
  have hmax : (if i ≥ s.chunk_count then { s with chunk_count := i + 1 } else s)
      = { s with chunk_count := max s.chunk_count (i + 1) } := by
    by_cases hc : i ≥ s.chunk_count
    · rw [if_pos hc]
      have : max s.chunk_count (i + 1) = i + 1 := by omega
      rw [this]
    · rw [if_neg hc]
      have : max s.chunk_count (i + 1) = s.chunk_count := by omega
      rw [this]
  have hnomm : ¬(s.user_id ≠ user.id ∨ s.user_provider ≠ user.provider) :=
    not_or.mpr ⟨not_not_intro howner.1, not_not_intro howner.2⟩
  have htake : d.take MAX_CHUNK_BYTES = d := take_all_of_le d MAX_CHUNK_BYTES hsz
  unfold handle_upload_chunk
  simp only [hs]
  rw [if_neg hnomm]
  simp only [htake, decide_eq_true_eq, not_le, hmax]
  rw [if_neg (by simp [Nat.not_lt, hsz])]

/-- State reached by submitting a whole list of chunks to one session. -/
theorem submit_chunks_spec
    (l : List (Nat × Bytes)) (st : Srv) (upload_id : String)
    (user : PlatformUser) (s : UploadSession)
    (hs : alookup st.upload_sessions upload_id = some s)
    (howner : s.user_id = user.id ∧ s.user_provider = user.provider)
    (hsz : ∀ p ∈ l, p.2.length ≤ MAX_CHUNK_BYTES) :
    alookup (submit_chunks st upload_id user l).upload_sessions upload_id
      = some { s with
          chunk_count := l.foldl (fun c p => max c (p.1 + 1)) s.chunk_count }
    ∧ (alookup (submit_chunks st upload_id user l).chunk_dirs upload_id).getD []
      = l.foldl (fun dir p => ainsert dir p.1 p.2)
          ((alookup st.chunk_dirs upload_id).getD []) := by
  induction l generalizing st s with
  | nil =>
    refine ⟨?_, rfl⟩
    simp only [submit_chunks, List.foldl_nil]
    rw [hs]
  | cons p rest ih =>
    obtain ⟨i, d⟩ := p
    have hstep := handle_upload_chunk_ok st upload_id i d user s hs howner
      (hsz (i, d) (List.mem_cons_self _ _))
    have hsubmit : submit_chunks st upload_id user ((i, d) :: rest)
        = submit_chunks (handle_upload_chunk st upload_id i d user).1 upload_id
            user rest := rfl
    rw [hsubmit, hstep]
    have hs2 : alookup
        (ainsert st.upload_sessions upload_id
          { s with chunk_count := max s.chunk_count (i + 1) }) upload_id
        = some { s with chunk_count := max s.chunk_count (i + 1) } :=
      alookup_ainsert_self _ _ _
    have := ih
      ({ st with
          chunk_dirs := ainsert st.chunk_dirs upload_id
            (ainsert ((alookup st.chunk_dirs upload_id).getD []) i d),
          upload_sessions := ainsert st.upload_sessions upload_id
            { s with chunk_count := max s.chunk_count (i + 1) } } : Srv)
      { s with chunk_count := max s.chunk_count (i + 1) }
      hs2 howner (fun q hq => hsz q (List.mem_cons_of_mem _ hq))
    refine ⟨this.1.trans ?_, this.2.trans ?_⟩
    · rfl
    · simp [alookup_ainsert_self]

theorem foldl_ainsert_lookup_not_mem {κ β : Type} [DecidableEq κ]
    (l : List (κ × β)) (base : List (κ × β)) (k : κ)
    (h : k ∉ l.map Prod.fst) :
    alookup (l.foldl (fun d p => ainsert d p.1 p.2) base) k = alookup base k := by
  induction l generalizing base with
  | nil => rfl
  | cons p rest ih =>
    obtain ⟨a, b⟩ := p
    simp only [List.map_cons, List.mem_cons, not_or] at h
    rw [List.foldl_cons, ih (ainsert base a b) h.2,
      alookup_ainsert_ne base a k b h.1]

theorem foldl_ainsert_lookup_mem {κ β : Type} [DecidableEq κ]
    (l : List (κ × β)) (base : List (κ × β)) (k : κ) (v : β)
    (hnd : (l.map Prod.fst).Nodup) (hmem : (k, v) ∈ l) :
    alookup (l.foldl (fun d p => ainsert d p.1 p.2) base) k = some v := by
  induction l generalizing base with
  | nil => simp at hmem
  | cons p rest ih =>
    obtain ⟨a, b⟩ := p
    simp only [List.map_cons, List.nodup_cons] at hnd
    rcases List.mem_cons.mp hmem with h | h
    · cases h
      rw [List.foldl_cons,
        foldl_ainsert_lookup_not_mem rest (ainsert base k v) k hnd.1,
        alookup_ainsert_self]
    · rw [List.foldl_cons]
      exact ih (ainsert base a b) hnd.2 h

/-- A missing index makes assembly fail (with either a missing-chunk or size error). -/
theorem assemble_go_missing
    (dir : List (Nat × Bytes)) (idxs : List Nat) (total : Nat) (acc : Bytes)
    (h : ∃ i ∈ idxs, alookup dir i = none) :
    ∃ e, assemble_go dir idxs total acc = .error e := by
  induction idxs generalizing total acc with
  | nil => simp at h
  | cons j rest ih =>
    obtain ⟨i, hi, hnone⟩ := h
    rcases hj : alookup dir j with _ | d
    · exact ⟨(AppErr.internalErr ("Missing chunk " ++ toString j), acc),
        by unfold assemble_go; simp only [hj]⟩
    · have hir : i ∈ rest := by
        rcases List.mem_cons.mp hi with rfl | hr
        · rw [hj] at hnone
          exact absurd hnone (by simp)
        · exact hr
      unfold assemble_go
      simp only [hj]
      by_cases hcap : total + d.length > MAX_UPLOAD_BYTES
      · exact ⟨(AppErr.fileTooLarge, acc), by rw [if_pos hcap]⟩
      · rw [if_neg hcap]
        exact ih _ _ ⟨i, hir, hnone⟩

/-- Assembly only looks at the chunk map through alookup, so extensionally equal maps assemble identically. -/
theorem assemble_go_congr
    (d1 d2 : List (Nat × Bytes)) (h : ∀ j, alookup d1 j = alookup d2 j)
    (idxs : List Nat) (total : Nat) (acc : Bytes) :
    assemble_go d1 idxs total acc = assemble_go d2 idxs total acc := by
  induction idxs generalizing total acc with
  | nil => rfl
  | cons j rest ih =>
    unfold assemble_go
    rw [h j]
    rcases hj : alookup d2 j with _ | d
    · simp only [hj]
    · simp only [hj]
      by_cases hcap : total + d.length > MAX_UPLOAD_BYTES
      · rw [if_pos hcap, if_pos hcap]
      · rw [if_neg hcap, if_neg hcap]
        exact ih _ _

/--
C7: (a) an authorized under-cap chunk write always succeeds — also for
re-sent or out-of-order indices, which overwrite their slot — and advances
the session's chunk count to max(current, index+1), never decreasing it;
(b) submitting the same distinct-index chunk set in any order yields the
same completed assembly; (c) a missing chunk at any index below the
recorded count makes assembly fail rather than skip.
-/
theorem c7_chunk_assembly :
    (∀ (st : Srv) (upload_id : String) (i : Nat) (d : Bytes)
      (user : PlatformUser) (s : UploadSession),
      alookup st.upload_sessions upload_id = some s →
      s.user_id = user.id ∧ s.user_provider = user.provider →
      d.length ≤ MAX_CHUNK_BYTES →
      handle_upload_chunk st upload_id i d user
        = ({ st with
              chunk_dirs := ainsert st.chunk_dirs upload_id
                (ainsert ((alookup st.chunk_dirs upload_id).getD []) i d),
              upload_sessions := ainsert st.upload_sessions upload_id
                { s with chunk_count := max s.chunk_count (i + 1) } },
           .ok d.length)
        ∧ s.chunk_count ≤ max s.chunk_count (i + 1))
    ∧ (∀ (st : Srv) (upload_id : String) (user : PlatformUser)
      (s : UploadSession) (l1 l2 : List (Nat × Bytes)),
      alookup st.upload_sessions upload_id = some s →
      s.user_id = user.id ∧ s.user_provider = user.provider →
      (alookup st.chunk_dirs upload_id).getD [] = [] →
      l1.Perm l2 →
      (l1.map Prod.fst).Nodup →
      (∀ p ∈ l1, p.2.length ≤ MAX_CHUNK_BYTES) →
      complete_assembly (submit_chunks st upload_id user l1) upload_id
        = complete_assembly (submit_chunks st upload_id user l2) upload_id)
    ∧ (∀ (dir : List (Nat × Bytes)) (count i : Nat),
      i < count → alookup dir i = none →
      ∀ b, assemble_chunks dir count ≠ .ok b) := by
  refine ⟨?_, ?_, ?_⟩
  · intro st upload_id i d user s hs howner hsz
    exact ⟨handle_upload_chunk_ok st upload_id i d user s hs howner hsz,
      Nat.le_max_left _ _⟩
  · intro st upload_id user s l1 l2 hs howner hdir hperm hnd hsz
    have hsz2 : ∀ p ∈ l2, p.2.length ≤ MAX_CHUNK_BYTES := fun p hp =>
      hsz p (hperm.mem_iff.mpr hp)
    have hnd2 : (l2.map Prod.fst).Nodup :=
      ((hperm.map Prod.fst).nodup_iff).mp hnd
    obtain ⟨hses1, hdir1⟩ := submit_chunks_spec l1 st upload_id user s hs howner hsz
    obtain ⟨hses2, hdir2⟩ := submit_chunks_spec l2 st upload_id user s hs howner hsz2
    have hcount : l1.foldl (fun c p => max c (p.1 + 1)) s.chunk_count
        = l2.foldl (fun c p => max c (p.1 + 1)) s.chunk_count := by
      haveI : RightCommutative (fun (c : Nat) (p : Nat × Bytes) => max c (p.1 + 1)) :=
        ⟨fun b a1 a2 => Nat.max_right_comm b (a1.1 + 1) (a2.1 + 1)⟩
      exact hperm.foldl_eq s.chunk_count
    have hmaps : ∀ j, alookup ((alookup (submit_chunks st upload_id user l1).chunk_dirs upload_id).getD []) j
        = alookup ((alookup (submit_chunks st upload_id user l2).chunk_dirs upload_id).getD []) j := by
      intro j
      rw [hdir1, hdir2, hdir]
      by_cases hj : j ∈ l1.map Prod.fst
      · obtain ⟨⟨j2, v⟩, hmem, hjeq⟩ := List.mem_map.mp hj
        cases hjeq
        rw [foldl_ainsert_lookup_mem l1 [] j2 v hnd hmem,
          foldl_ainsert_lookup_mem l2 [] j2 v hnd2 (hperm.mem_iff.mp hmem)]
      · have hj2 : j ∉ l2.map Prod.fst := fun hc =>
          hj ((hperm.map Prod.fst).mem_iff.mpr hc)
        rw [foldl_ainsert_lookup_not_mem l1 [] j hj,
          foldl_ainsert_lookup_not_mem l2 [] j hj2]
    unfold complete_assembly session_chunks session_count assemble_chunks
    rw [hses1, hses2]
    simp only [Option.map_some', Option.getD_some]
    rw [hcount]
    exact assemble_go_congr _ _ hmaps _ _ _
  · intro dir count i hc hnone b
    obtain ⟨e, he⟩ := assemble_go_missing dir (List.range count) 0 []
      ⟨i, List.mem_range.mpr hc, hnone⟩
    unfold assemble_chunks
    rw [he]
    simp

/-- Instantiation of c7: chunk 1 then chunk 0 assembles the same bytes as chunk 0 then chunk 1, and a gap fails. -/
theorem c7_witness :
    (handle_upload_chunk
        { initSrv with
            upload_sessions := [("up1",
              { user_provider := "osu", user_id := 7, content_type := "video/mp4"
                created_at := 0, chunk_count := 0 })] }
        "up1" 1 [5, 6] user0).2 = .ok 2
      ∧ complete_assembly
          (submit_chunks
            { initSrv with
                upload_sessions := [("up1",
                  { user_provider := "osu", user_id := 7, content_type := "video/mp4"
                    created_at := 0, chunk_count := 0 })] }
            "up1" user0 [(1, [5, 6]), (0, [3, 4])])
          "up1"
        = complete_assembly
            (submit_chunks
              { initSrv with
                  upload_sessions := [("up1",
                    { user_provider := "osu", user_id := 7, content_type := "video/mp4"
                      created_at := 0, chunk_count := 0 })] }
              "up1" user0 [(0, [3, 4]), (1, [5, 6])])
            "up1"
      ∧ (∀ b, assemble_chunks [(1, [5, 6])] 2 ≠ .ok b) := by
  refine ⟨?_, ?_, ?_⟩
  · exact congrArg Prod.snd ((c7_chunk_assembly.1
      { initSrv with
          upload_sessions := [("up1",
            { user_provider := "osu", user_id := 7, content_type := "video/mp4"
              created_at := 0, chunk_count := 0 })] }
      "up1" 1 [5, 6] user0
      { user_provider := "osu", user_id := 7, content_type := "video/mp4"
        created_at := 0, chunk_count := 0 }
      (by decide) (by decide) (by decide)).1)
  · exact c7_chunk_assembly.2.1
      { initSrv with
          upload_sessions := [("up1",
            { user_provider := "osu", user_id := 7, content_type := "video/mp4"
              created_at := 0, chunk_count := 0 })] }
      "up1" user0
      { user_provider := "osu", user_id := 7, content_type := "video/mp4"
        created_at := 0, chunk_count := 0 }
      [(1, [5, 6]), (0, [3, 4])] [(0, [3, 4]), (1, [5, 6])]
      (by decide) (by decide) (by decide)
      (List.Perm.swap _ _ _) (by decide) (by decide)
  · exact c7_chunk_assembly.2.2 [(1, [5, 6])] 2 0 (by decide) (by decide)

/-- Total size of the chunks at the given indices (0 for a missing chunk). -/
def chunks_total_from (dir : List (Nat × Bytes)) (idxs : List Nat) : Nat :=
  (idxs.map fun i => ((alookup dir i).getD []).length).sum

/-- Assembly aborts with FileTooLarge as soon as the running total passes the cap. -/
theorem assemble_go_overflow
    (dir : List (Nat × Bytes)) (idxs : List Nat) (total : Nat) (acc : Bytes)
    (hall : ∀ i ∈ idxs, (alookup dir i).isSome = true)
    (hstart : total ≤ MAX_UPLOAD_BYTES)
    (hover : total + chunks_total_from dir idxs > MAX_UPLOAD_BYTES) :
    ∃ p, assemble_go dir idxs total acc = .error (.fileTooLarge, p) := by
  induction idxs generalizing total acc with
  | nil =>
    exfalso
    unfold chunks_total_from at hover
    simp at hover
    omega
  | cons j rest ih =>
    rcases hj : alookup dir j with _ | d
    · have := hall j (List.mem_cons_self _ _)
      rw [hj] at this
      simp at this
    · unfold assemble_go
      simp only [hj]
      by_cases hcap : total + d.length > MAX_UPLOAD_BYTES
      · exact ⟨acc, by rw [if_pos hcap]⟩
      · rw [if_neg hcap]
        have hsum : chunks_total_from dir (j :: rest)
            = d.length + chunks_total_from dir rest := by
          unfold chunks_total_from
          simp [hj]
        exact ih _ _ (fun i hi => hall i (List.mem_cons_of_mem _ hi))
          (by omega) (by omega)

/--
C9 counterexample: the chunk endpoint of videos.rs (upload_chunk) never
checks completeness of the capped write — a chunk one byte over the 6 MiB
per-chunk cap is silently truncated to exactly the cap, the truncated chunk
file is kept, the chunk count is advanced and the write is acknowledged
with Ok, contradicting the claim that every chunk entry point rejects an
over-cap chunk and deletes the partial chunk.
-/
theorem c9_counterexample :
    upload_chunk_videos
        { initSrv with
            upload_sessions := [("up1",
              { user_provider := "osu", user_id := 7, content_type := "video/mp4"
                created_at := 0, chunk_count := 0 })] }
        "up1" 0 (List.replicate (MAX_CHUNK_BYTES + 1) 9) user0
      = ({ initSrv with
            upload_sessions := [("up1",
              { user_provider := "osu", user_id := 7, content_type := "video/mp4"
                created_at := 0, chunk_count := 1 })],
            chunk_dirs := [("up1", [(0, List.replicate MAX_CHUNK_BYTES 9)])] },
         .ok MAX_CHUNK_BYTES) := by
  have htake : (List.replicate (MAX_CHUNK_BYTES + 1) 9).take MAX_CHUNK_BYTES
      = List.replicate MAX_CHUNK_BYTES 9 := by
    rw [List.take_replicate]
    rw [Nat.min_eq_left (by omega)]
  unfold upload_chunk_videos
  have hs : alookup
      ({ initSrv with
          upload_sessions := [("up1",
            { user_provider := "osu", user_id := 7, content_type := "video/mp4"
              created_at := 0, chunk_count := 0 })] } : Srv).upload_sessions
      "up1"
      = some { user_provider := "osu", user_id := 7, content_type := "video/mp4"
               created_at := 0, chunk_count := 0 } := rfl
  simp only [hs]
  rw [if_neg (by decide)]
  simp only [htake]
  simp [initSrv, ainsert, aerase, alookup, List.length_replicate]

/--
C9 (amended): the single-shot entry point rejects an over-cap body deleting
the partial temp file; the shared media chunk endpoint (audio/image/text
routes) rejects an over-cap chunk deleting the partial chunk; completion
aborts with FileTooLarge as soon as the running total passes the cap,
deleting the partial assembled file and the whole chunk directory; but the
videos.rs chunk endpoint truncates an over-cap chunk at the per-chunk cap
and accepts it, keeping the truncated chunk and advancing the count.
-/
theorem c9_size_caps
    : (∀ (E : Ext) (st : Srv) (title0 : String) (n u c : Option Bool)
      (data : Bytes) (hdr : String) (user : PlatformUser)
      (allowed : List String) (temp_id fresh_id base_mime : String),
      str_trim (before_semicolon hdr) = base_mime →
      (str_trim title0).isEmpty = false → (str_trim title0).length ≤ 200 →
      allowed.contains base_mime = true →
      alookup st.files ("tmp_" ++ temp_id ++ extension_for_mime base_mime) = none →
      data.length > MAX_UPLOAD_BYTES →
      handle_upload E st title0 n u c data hdr user allowed temp_id fresh_id
        = (st, .failed .fileTooLarge))
    ∧ (∀ (st : Srv) (upload_id : String) (i : Nat) (d : Bytes)
      (user : PlatformUser) (s : UploadSession),
      alookup st.upload_sessions upload_id = some s →
      s.user_id = user.id ∧ s.user_provider = user.provider →
      d.length > MAX_CHUNK_BYTES →
      handle_upload_chunk st upload_id i d user
        = ({ st with
              chunk_dirs := ainsert st.chunk_dirs upload_id
                (aerase ((alookup st.chunk_dirs upload_id).getD []) i) },
           .error .fileTooLarge))
    ∧ (∀ (dir : List (Nat × Bytes)) (count : Nat),
      (∀ i ∈ List.range count, (alookup dir i).isSome = true) →
      chunks_total_from dir (List.range count) > MAX_UPLOAD_BYTES →
      ∃ p, assemble_chunks dir count = .error (.fileTooLarge, p))
    ∧ (∀ (E : Ext) (st : Srv) (upload_id title0 : String)
      (n u c : Option Bool) (user : PlatformUser) (allowed : List String)
      (temp_id fresh_id : String) (s : UploadSession) (p : Bytes),
      (str_trim title0).isEmpty = false → (str_trim title0).length ≤ 200 →
      alookup st.upload_sessions upload_id = some s →
      s.user_id = user.id ∧ s.user_provider = user.provider →
      allowed.contains s.content_type = true →
      assemble_chunks ((alookup st.chunk_dirs upload_id).getD [])
          s.chunk_count = .error (.fileTooLarge, p) →
      handle_complete_upload E st upload_id title0 n u c user allowed
          temp_id fresh_id
        = ({ st with
              upload_sessions := aerase st.upload_sessions upload_id,
              files := aerase st.files
                ("tmp_" ++ temp_id ++ extension_for_mime s.content_type),
              chunk_dirs := aerase st.chunk_dirs upload_id },
           .failed .fileTooLarge))
    ∧ (∀ (st : Srv) (upload_id : String) (i : Nat) (d : Bytes)
      (user : PlatformUser) (s : UploadSession),
      alookup st.upload_sessions upload_id = some s →
      s.user_id = user.id ∧ s.user_provider = user.provider →
      upload_chunk_videos st upload_id i d user
        = ({ st with
              chunk_dirs := ainsert st.chunk_dirs upload_id
                (ainsert ((alookup st.chunk_dirs upload_id).getD []) i
                  (d.take MAX_CHUNK_BYTES)),
              upload_sessions := ainsert st.upload_sessions upload_id
                { s with chunk_count := max s.chunk_count (i + 1) } },
           .ok (d.take MAX_CHUNK_BYTES).length)) := by
  refine ⟨?_, ?_, ?_, ?_, ?_⟩
  · intro E st title0 n u c data hdr user allowed temp_id fresh_id base_mime
      hmime ht1 ht2 hallow hfresh hlen
    have hti : ((str_trim title0).isEmpty
        || decide ((str_trim title0).length > 200)) = false := by
      simp [ht1, Nat.not_lt]
      exact ht2
    unfold handle_upload
    simp only [hti, Bool.false_eq_true, if_false, hmime]
    rw [if_neg (not_not_intro hallow)]
    rw [if_pos (show ¬ decide (data.length ≤ MAX_UPLOAD_BYTES) = true by
      simp only [decide_eq_true_eq, Nat.not_le]
      omega)]
    have : aerase (ainsert st.files
        ("tmp_" ++ temp_id ++ extension_for_mime base_mime)
        (data.take MAX_UPLOAD_BYTES))
        ("tmp_" ++ temp_id ++ extension_for_mime base_mime) = st.files := by
      rw [aerase_ainsert_self, aerase_of_alookup_none _ _ hfresh]
    rw [this]
  · intro st upload_id i d user s hs howner hlen
    have hnomm : ¬(s.user_id ≠ user.id ∨ s.user_provider ≠ user.provider) :=
      not_or.mpr ⟨not_not_intro howner.1, not_not_intro howner.2⟩
    unfold handle_upload_chunk
    simp only [hs]
    rw [if_neg hnomm]
    rw [if_pos (by simp [Nat.not_le, hlen])]
    rw [aerase_ainsert_self]
    have : ainsert (ainsert st.chunk_dirs upload_id
        (ainsert ((alookup st.chunk_dirs upload_id).getD []) i
          (d.take MAX_CHUNK_BYTES))) upload_id
        (aerase ((alookup st.chunk_dirs upload_id).getD []) i)
        = ainsert st.chunk_dirs upload_id
            (aerase ((alookup st.chunk_dirs upload_id).getD []) i) := by
      unfold ainsert
      rw [aerase_cons, if_pos rfl, aerase_aerase]
    rw [this]
  · intro dir count hall hover
    exact assemble_go_overflow dir (List.range count) 0 [] hall (by simp [MAX_UPLOAD_BYTES]) (by omega)
  · intro E st upload_id title0 n u c user allowed temp_id fresh_id s p
      ht1 ht2 hs howner hallow hasm
    have hti : ((str_trim title0).isEmpty
        || decide ((str_trim title0).length > 200)) = false := by
      simp [ht1, Nat.not_lt]
      exact ht2
    have hnomm : ¬(s.user_id ≠ user.id ∨ s.user_provider ≠ user.provider) :=
      not_or.mpr ⟨not_not_intro howner.1, not_not_intro howner.2⟩
    unfold handle_complete_upload
    simp only [hti, Bool.false_eq_true, if_false, hs]
    rw [if_neg hnomm]
    rw [if_neg (not_not_intro hallow)]
    simp only [hasm]
  · intro st upload_id i d user s hs howner
    have hmax : (if i ≥ s.chunk_count then { s with chunk_count := i + 1 } else s)
        = { s with chunk_count := max s.chunk_count (i + 1) } := by
      by_cases hc : i ≥ s.chunk_count
      · rw [if_pos hc]
        have : max s.chunk_count (i + 1) = i + 1 := by omega
        rw [this]
      · rw [if_neg hc]
        have : max s.chunk_count (i + 1) = s.chunk_count := by omega
        rw [this]
    have hnomm : ¬(s.user_id ≠ user.id ∨ s.user_provider ≠ user.provider) :=
      not_or.mpr ⟨not_not_intro howner.1, not_not_intro howner.2⟩
    unfold upload_chunk_videos
    simp only [hs]
    rw [if_neg hnomm]
    simp only [hmax]


/-- Instantiation of c9: over-cap single shot rejected; over-cap media chunk rejected with deletion; cumulative overflow aborts completion; videos chunk endpoint truncates and accepts. -/
theorem c9_witness :
    handle_upload E0 initSrv "big" none none none
        (List.replicate (MAX_UPLOAD_BYTES + 1) 0) "video/mp4" user0
        ["video/mp4"] "t1" "id1"
      = (initSrv, .failed .fileTooLarge)
    ∧ handle_upload_chunk
        { initSrv with
            upload_sessions := [("up1",
              { user_provider := "osu", user_id := 7, content_type := "video/mp4"
                created_at := 0, chunk_count := 0 })] }
        "up1" 0 (List.replicate (MAX_CHUNK_BYTES + 1) 9) user0
      = ({ initSrv with
            upload_sessions := [("up1",
              { user_provider := "osu", user_id := 7, content_type := "video/mp4"
                created_at := 0, chunk_count := 0 })],
            chunk_dirs := [("up1", [])] },
         .error .fileTooLarge)
    ∧ (∃ p, assemble_chunks [(0, List.replicate (MAX_UPLOAD_BYTES + 1) 3)] 1
        = .error (.fileTooLarge, p))
    ∧ upload_chunk_videos
        { initSrv with
            upload_sessions := [("up1",
              { user_provider := "osu", user_id := 7, content_type := "video/mp4"
                created_at := 0, chunk_count := 0 })] }
        "up1" 0 (List.replicate (MAX_CHUNK_BYTES + 1) 9) user0
      = ({ initSrv with
            upload_sessions := [("up1",
              { user_provider := "osu", user_id := 7, content_type := "video/mp4"
                created_at := 0, chunk_count := 1 })],
            chunk_dirs := [("up1", [(0, List.replicate MAX_CHUNK_BYTES 9)])] },
         .ok MAX_CHUNK_BYTES) := by
  have hlen1 : (List.replicate (MAX_UPLOAD_BYTES + 1) (0 : Nat)).length
      > MAX_UPLOAD_BYTES := by
    rw [List.length_replicate]
    exact Nat.lt_succ_self _
  have hlen2 : (List.replicate (MAX_CHUNK_BYTES + 1) (9 : Nat)).length
      > MAX_CHUNK_BYTES := by
    rw [List.length_replicate]
    exact Nat.lt_succ_self _
  have htake : (List.replicate (MAX_CHUNK_BYTES + 1) 9).take MAX_CHUNK_BYTES
      = List.replicate MAX_CHUNK_BYTES 9 := by
    rw [List.take_replicate]
    rw [Nat.min_eq_left (Nat.le_succ _)]
  refine ⟨?_, ?_, ?_, ?_⟩
  · exact c9_size_caps.1 E0 initSrv "big" none none none
      (List.replicate (MAX_UPLOAD_BYTES + 1) 0) "video/mp4" user0
      ["video/mp4"] "t1" "id1" "video/mp4" (by decide) (by decide) (by decide)
      (by decide) (by decide) hlen1
  · exact (c9_size_caps.2.1
      { initSrv with
          upload_sessions := [("up1",
            { user_provider := "osu", user_id := 7, content_type := "video/mp4"
              created_at := 0, chunk_count := 0 })] }
      "up1" 0 (List.replicate (MAX_CHUNK_BYTES + 1) 9) user0
      { user_provider := "osu", user_id := 7, content_type := "video/mp4"
        created_at := 0, chunk_count := 0 }
      (by decide) (by decide) hlen2).trans (by decide)
  · refine c9_size_caps.2.2.1 [(0, List.replicate (MAX_UPLOAD_BYTES + 1) 3)] 1
      (by decide) ?_
    unfold chunks_total_from
    rw [show List.range 1 = [0] from rfl, List.map_cons, List.map_nil, List.sum_cons, List.sum_nil,
      show alookup [(0, List.replicate (MAX_UPLOAD_BYTES + 1) 3)] 0
        = some (List.replicate (MAX_UPLOAD_BYTES + 1) 3) from rfl,
      Option.getD_some, List.length_replicate]
    rw [Nat.add_zero]
    exact Nat.lt_succ_self _
  · refine (c9_size_caps.2.2.2.2
      { initSrv with
          upload_sessions := [("up1",
            { user_provider := "osu", user_id := 7, content_type := "video/mp4"
              created_at := 0, chunk_count := 0 })] }
      "up1" 0 (List.replicate (MAX_CHUNK_BYTES + 1) 9) user0
      { user_provider := "osu", user_id := 7, content_type := "video/mp4"
        created_at := 0, chunk_count := 0 }
      (by decide) (by decide)).trans ?_
    rw [htake]
    simp [initSrv, ainsert, aerase, alookup, List.length_replicate]

/-- Position of one in-flight upload inside the commit phase of process_uploaded_file. -/
inductive UPhase where
  | ready
  | armed
  | done (r : UploadResult)
deriving DecidableEq, Repr

/-- One in-flight upload request: its inputs plus its current phase. -/
structure UTask where
  temp_path : String
  bytes : Bytes
  base_mime : String
  ext : String
  title : String
  user : PlatformUser
  fresh_id : String
  phase : UPhase
deriving DecidableEq, Repr

/-
Interleaving model of the dedup decision in process_uploaded_file for
uploads whose fuzzy digest is None (tlsh_hex is None, e.g. any non-video
upload, so the fuzzy branch is skipped exactly as in the source).  In the
source the exact-hash read (state.video_hashes.get, media.rs line 477) and
the commit writes (fs::rename + persist + the three inserts, lines
526..557) are separate operations on the shared DashMaps with await points
between them (fs::rename is awaited at line 530), so between the read and
the writes of one request the handler of another request can run both of
its own.  Each of the two is modelled as one atomic step: ready — about to
run the exact-hash check; armed — check returned None, about to run the
new-owner commit block; done — the handler returned.
-/
def utask_step (E : Ext) (st : Srv) (t : UTask) : Srv × UTask :=
  match t.phase with
  | .done _ => (st, t)
  | .ready =>
    match alookup st.video_hashes (E.sha256_hex t.bytes) with
    | some existing_id =>
      ({ st with files := aerase st.files t.temp_path },
        { t with phase := .done (.failed (.duplicateVideo existing_id)) })
    | none => (st, { t with phase := .armed })
  | .armed =>
    let r := commit_new_owner st t.temp_path t.bytes t.base_mime t.ext t.title
      false false true t.user (E.sha256_hex t.bytes) none t.fresh_id
    (r.1, { t with phase := .done (.created false none r.2) })

/-- Run two interleaved upload tasks under a schedule: false steps the first task, true the second. -/
def c1_run (E : Ext) : List Bool → Srv × UTask × UTask → Srv × UTask × UTask
  | [], sys => sys
  | b :: rest, (st, t0, t1) =>
    if b then
      let s := utask_step E st t1
      c1_run E rest (s.1, t0, s.2)
    else
      let s := utask_step E st t0
      c1_run E rest (s.1, s.2, t1)

/-- Number of owning (non-referencing) catalog entries carrying a given exact digest. -/
def owning_count (st : Srv) (sha : String) : Nat :=
  (st.videos.filter fun p =>
    decide (p.2.references_id = none ∧ p.2.sha256 = sha)).length

/-- First task of the C1 race: bytes [104,105,106,107] as text/plain. -/
def c1_taskA : UTask :=
  { temp_path := "tmpA", bytes := [104, 105, 106, 107], base_mime := "text/plain"
    ext := ".txt", title := "a", user := user0, fresh_id := "idA"
    phase := .ready }

/-- Second task of the C1 race: byte-identical payload, different temp file and id. -/
def c1_taskB : UTask :=
  { temp_path := "tmpB", bytes := [104, 105, 106, 107], base_mime := "text/plain"
    ext := ".txt", title := "b", user := user0, fresh_id := "idB"
    phase := .ready }

/-- Initial state of the C1 race: both temp files written, empty catalog. -/
def c1_state : Srv :=
  { initSrv with
      files := [("tmpA", [104, 105, 106, 107]), ("tmpB", [104, 105, 106, 107])] }

/--
C1 counterexample: under the interleaving check-A, check-B, commit-A,
commit-B (possible because the exact-hash get and the index insert are
separate DashMap operations with an awaited fs::rename between them), two
byte-identical concurrent uploads BOTH commit as independent owning items
and both report the "new" outcome — there are two owning catalog entries
with the same exact digest, contradicting the claimed atomicity of the
check-then-insert and the claimed exactly-one-owner outcome.
-/
theorem c1_counterexample :
    owning_count
        (c1_run E0 [false, true, false, true] (c1_state, c1_taskA, c1_taskB)).1
        "sha-4-104" = 2
      ∧ (c1_run E0 [false, true, false, true]
          (c1_state, c1_taskA, c1_taskB)).2.1.phase
        = .done (.created false none
            { id := "idA", title := "a", filename := "idA.txt"
              content_type := "text/plain", size_bytes := 4
              sha256 := "sha-4-104", tlsh_hash := none
              uploaded_by_provider := "osu", uploaded_by_id := 7
              uploaded_by_name := "alice", nsfw := false, unlisted := false
              comments_disabled := true, references_id := none })
      ∧ (c1_run E0 [false, true, false, true]
          (c1_state, c1_taskA, c1_taskB)).2.2.phase
        = .done (.created false none
            { id := "idB", title := "b", filename := "idB.txt"
              content_type := "text/plain", size_bytes := 4
              sha256 := "sha-4-104", tlsh_hash := none
              uploaded_by_provider := "osu", uploaded_by_id := 7
              uploaded_by_name := "alice", nsfw := false, unlisted := false
              comments_disabled := true, references_id := none }) := by
  refine ⟨?_, ?_, ?_⟩ <;> decide

/--
C1 (amended): the exact-hash check and the index insert are separate
operations, so the at-most-one-owner guarantee only holds when the two
requests do not interleave: if the first upload runs its check and commit
to completion before the second starts, exactly one owning entry results,
the first request reports "new" and the second gets the exact-duplicate
outcome naming the first's id.
-/
theorem c1_serial_dedup
    (E : Ext) (st : Srv) (t0 t1 : UTask)
    (hph0 : t0.phase = .ready) (hph1 : t1.phase = .ready)
    (hbytes : t1.bytes = t0.bytes)
    (hnod : alookup st.video_hashes (E.sha256_hex t0.bytes) = none)
    (hcnt : owning_count st (E.sha256_hex t0.bytes) = 0)
    (hfresh : alookup st.videos t0.fresh_id = none) :
    owning_count
        (c1_run E [false, false, true, true] (st, t0, t1)).1
        (E.sha256_hex t0.bytes) = 1
      ∧ (∃ m, (c1_run E [false, false, true, true] (st, t0, t1)).2.1.phase
          = .done (.created false none m))
      ∧ (c1_run E [false, false, true, true] (st, t0, t1)).2.2.phase
        = .done (.failed (.duplicateVideo t0.fresh_id)) := by
  have hstep0 : utask_step E st t0 = (st, { t0 with phase := .armed }) := by
    unfold utask_step
    rw [hph0, hnod]
  have hrun : c1_run E [false, false, true, true] (st, t0, t1)
      = c1_run E [false, true, true] (st, { t0 with phase := .armed }, t1) := by
    show c1_run E [false, true, true]
        ((utask_step E st t0).1, (utask_step E st t0).2, t1) = _
    rw [hstep0]
  rw [hrun]
  set r := commit_new_owner st t0.temp_path t0.bytes t0.base_mime t0.ext
    t0.title false false true t0.user (E.sha256_hex t0.bytes) none t0.fresh_id
    with hr
  have hstep1 : utask_step E st { t0 with phase := .armed }
      = (r.1, { t0 with phase := .done (.created false none r.2) }) := by
    unfold utask_step
    rfl
  have hrun2 : c1_run E [false, true, true] (st, { t0 with phase := .armed }, t1)
      = c1_run E [true, true]
          (r.1, { t0 with phase := .done (.created false none r.2) }, t1) := by
    show c1_run E [true, true]
        ((utask_step E st { t0 with phase := .armed }).1,
         (utask_step E st { t0 with phase := .armed }).2, t1) = _
    rw [hstep1]
  rw [hrun2]
  have hhash1 : alookup r.1.video_hashes (E.sha256_hex t1.bytes)
      = some t0.fresh_id := by
    rw [hbytes, hr]
    unfold commit_new_owner persist_video
    simp
  have hstep2 : utask_step E r.1 t1
      = ({ r.1 with files := aerase r.1.files t1.temp_path },
         { t1 with phase := .done (.failed (.duplicateVideo t0.fresh_id)) }) := by
    unfold utask_step
    rw [hph1, hhash1]
  have hrun3 : c1_run E [true, true]
      (r.1, { t0 with phase := .done (.created false none r.2) }, t1)
      = c1_run E [true]
          ({ r.1 with files := aerase r.1.files t1.temp_path },
           { t0 with phase := .done (.created false none r.2) },
           { t1 with phase := .done (.failed (.duplicateVideo t0.fresh_id)) }) := by
    show c1_run E [true]
        ((utask_step E r.1 t1).1,
         { t0 with phase := .done (.created false none r.2) },
         (utask_step E r.1 t1).2) = _
    rw [hstep2]
  rw [hrun3]
  have hrun4 : ∀ sys, c1_run E [true] sys
      = (if True then
          ((utask_step E sys.1 sys.2.2).1, sys.2.1, (utask_step E sys.1 sys.2.2).2)
        else sys) := by
    intro sys
    rfl
  have hdone : ∀ (st2 : Srv) (t0d t1d : UTask) (rr : UploadResult),
      t1d.phase = .done rr →
      c1_run E [true] (st2, t0d, t1d) = (st2, t0d, t1d) := by
    intro st2 t0d t1d rr hph
    show ((utask_step E st2 t1d).1, t0d, (utask_step E st2 t1d).2) = _
    unfold utask_step
    rw [hph]
  rw [hdone _ _ _ (.failed (.duplicateVideo t0.fresh_id)) rfl]
  have hvideos : r.1.videos = ainsert st.videos t0.fresh_id r.2 := by
    rw [hr]
    unfold commit_new_owner persist_video
    cases (none : Option String) <;> rfl
  have hcount : owning_count r.1 (E.sha256_hex t0.bytes) = 1 := by
    unfold owning_count
    rw [hvideos]
    unfold ainsert
    rw [aerase_of_alookup_none st.videos t0.fresh_id hfresh]
    have hmeta : (decide (r.2.references_id = none
        ∧ r.2.sha256 = E.sha256_hex t0.bytes)) = true := by
      rw [hr]
      unfold commit_new_owner persist_video
      simp
    rw [List.filter_cons, hmeta]
    unfold owning_count at hcnt
    simp only [if_true, List.length_cons, hcnt]
  exact ⟨hcount, ⟨r.2, rfl⟩, rfl⟩

/-- Instantiation of c1_serial_dedup at the concrete race state. -/
theorem c1_witness :
    owning_count
        (c1_run E0 [false, false, true, true] (c1_state, c1_taskA, c1_taskB)).1
        (E0.sha256_hex c1_taskA.bytes) = 1
      ∧ (∃ m, (c1_run E0 [false, false, true, true]
          (c1_state, c1_taskA, c1_taskB)).2.1.phase
            = .done (.created false none m))
      ∧ (c1_run E0 [false, false, true, true]
          (c1_state, c1_taskA, c1_taskB)).2.2.phase
        = .done (.failed (.duplicateVideo "idA")) :=
  c1_serial_dedup E0 c1_state c1_taskA c1_taskB rfl rfl rfl
    (by decide) (by decide) (by decide)

theorem alookup_mem {κ β : Type} [DecidableEq κ]
    (m : List (κ × β)) (k : κ) (v : β) (h : alookup m k = some v) : (k, v) ∈ m := by
  induction m with
  | nil => simp at h
  | cons p rest ih =>
    obtain ⟨a, b⟩ := p
    by_cases ha : a = k
    · subst ha
      simp only [alookup_cons, if_pos rfl] at h
      exact List.mem_cons.mpr (Or.inl (by rw [Option.some.inj h]))
    · simp only [alookup_cons, if_neg ha] at h
      exact List.mem_cons.mpr (Or.inr (ih h))

/--
The catalog-shape invariant maintained by every mutation: catalog and
fuzzy-index keys are duplicate-free; every id in the fuzzy index that is
still in the catalog names a non-referencing video/mp4 item; and every
referencing item whose target is still in the catalog points at a
non-referencing item and carries the target's filename and content type.
-/
def CatalogInv (videos : List (String × VideoMeta))
    (tlsh : List (String × String)) : Prop :=
  (akeys videos).Nodup
  ∧ (akeys tlsh).Nodup
  ∧ (∀ i t m, alookup tlsh i = some t → alookup videos i = some m →
      m.references_id = none ∧ m.content_type = "video/mp4")
  ∧ (∀ r m o om, alookup videos r = some m → m.references_id = some o →
      alookup videos o = some om →
      om.references_id = none ∧ m.filename = om.filename
        ∧ m.content_type = om.content_type)

theorem CatalogInv_init : CatalogInv initSrv.videos initSrv.video_tlsh := by
  refine ⟨List.nodup_nil, List.nodup_nil, ?_, ?_⟩
  · intro i t m h
    simp [initSrv] at h
  · intro r m o om h
    simp [initSrv] at h

/-- Erasing entries from either map preserves the invariant. -/
theorem CatalogInv_erase
    (videos : List (String × VideoMeta)) (tlsh : List (String × String))
    (hinv : CatalogInv videos tlsh) (vid tid : String) :
    CatalogInv (aerase videos vid) (aerase tlsh tid) := by
  obtain ⟨hn1, hn2, htl, href⟩ := hinv
  have hla : ∀ (q : String) (v : VideoMeta),
      alookup (aerase videos vid) q = some v → alookup videos q = some v := by
    intro q v h
    by_cases hq : q = vid
    · rw [hq, alookup_aerase_self] at h
      exact absurd h (by simp)
    · rwa [alookup_aerase_ne videos vid q hq] at h
  have hlb : ∀ (q t : String),
      alookup (aerase tlsh tid) q = some t → alookup tlsh q = some t := by
    intro q t h
    by_cases hq : q = tid
    · rw [hq, alookup_aerase_self] at h
      exact absurd h (by simp)
    · rwa [alookup_aerase_ne tlsh tid q hq] at h
  refine ⟨nodup_akeys_aerase _ _ hn1, nodup_akeys_aerase _ _ hn2, ?_, ?_⟩
  · intro i t m h1 h2
    exact htl i t m (hlb i t h1) (hla i m h2)
  · intro r m o om h1 h2 h3
    exact href r m o om (hla r m h1) h2 (hla o om h3)

/-- Erasing only from the catalog preserves the invariant. -/
theorem CatalogInv_erase_videos
    (videos : List (String × VideoMeta)) (tlsh : List (String × String))
    (hinv : CatalogInv videos tlsh) (vid : String) :
    CatalogInv (aerase videos vid) tlsh := by
  obtain ⟨hn1, hn2, htl, href⟩ := hinv
  have hla : ∀ (q : String) (v : VideoMeta),
      alookup (aerase videos vid) q = some v → alookup videos q = some v := by
    intro q v h
    by_cases hq : q = vid
    · rw [hq, alookup_aerase_self] at h
      exact absurd h (by simp)
    · rwa [alookup_aerase_ne videos vid q hq] at h
  refine ⟨nodup_akeys_aerase _ _ hn1, hn2, ?_, ?_⟩
  · intro i t m h1 h2
    exact htl i t m h1 (hla i m h2)
  · intro r m o om h1 h2 h3
    exact href r m o om (hla r m h1) h2 (hla o om h3)

/-- Overwriting an entry with one that keeps references_id, filename and content_type preserves the invariant. -/
theorem CatalogInv_update_fields
    (videos : List (String × VideoMeta)) (tlsh : List (String × String))
    (id : String) (v v2 : VideoMeta)
    (hv : alookup videos id = some v)
    (hrf : v2.references_id = v.references_id)
    (hfn : v2.filename = v.filename)
    (hct : v2.content_type = v.content_type)
    (hinv : CatalogInv videos tlsh) :
    CatalogInv (ainsert videos id v2) tlsh := by
  obtain ⟨hn1, hn2, htl, href⟩ := hinv
  have hlook : ∀ (q : String) (w : VideoMeta),
      alookup (ainsert videos id v2) q = some w →
      (q = id ∧ w = v2) ∨ (q ≠ id ∧ alookup videos q = some w) := by
    intro q w h
    by_cases hq : q = id
    · subst hq
      rw [alookup_ainsert_self] at h
      exact Or.inl ⟨rfl, (Option.some.inj h).symm⟩
    · rw [alookup_ainsert_ne videos id q v2 hq] at h
      exact Or.inr ⟨hq, h⟩
  refine ⟨nodup_akeys_ainsert _ _ _ hn1, hn2, ?_, ?_⟩
  · intro i t m h1 h2
    rcases hlook i m h2 with ⟨rfl, rfl⟩ | ⟨hne, h2b⟩
    · obtain ⟨hc1, hc2⟩ := htl i t v h1 hv
      exact ⟨hrf.trans hc1, hct.trans hc2⟩
    · exact htl i t m h1 h2b
  · intro r m o om h1 h2 h3
    rcases hlook r m h1 with ⟨rfl, rfl⟩ | ⟨hner, h1b⟩
    · have h2v : v.references_id = some o := hrf ▸ h2
      rcases hlook o om h3 with ⟨rfl, rfl⟩ | ⟨hneo, h3b⟩
      · obtain ⟨hc1, hc2, hc3⟩ := href o v o v hv h2v hv
        exact ⟨hrf.trans hc1, rfl, rfl⟩
      · obtain ⟨hc1, hc2, hc3⟩ := href r v o om hv h2v h3b
        exact ⟨hc1, hfn.trans hc2, hct.trans hc3⟩
    · rcases hlook o om h3 with ⟨rfl, rfl⟩ | ⟨hneo, h3b⟩
      · obtain ⟨hc1, hc2, hc3⟩ := href r m o v h1b h2 hv
        exact ⟨hrf.trans hc1, hc2.trans hfn.symm, hc3.trans hct.symm⟩
      · exact href r m o om h1b h2 h3b

/-- Inserting a fresh referencing item whose target is in the fuzzy index preserves the invariant. -/
theorem CatalogInv_insert_ref
    (videos : List (String × VideoMeta)) (tlsh : List (String × String))
    (fresh orig : String) (meta : VideoMeta)
    (hinv : CatalogInv videos tlsh)
    (hfresh1 : alookup videos fresh = none)
    (hfresh2 : alookup tlsh fresh = none)
    (hfresh3 : ∀ p ∈ videos, p.2.references_id ≠ some fresh)
    (hmref : meta.references_id = some orig)
    (hmfn : meta.filename = ((alookup videos orig).map (·.filename)).getD "")
    (hmct : meta.content_type = "video/mp4")
    (horig : ∃ t2, alookup tlsh orig = some t2) :
    CatalogInv (ainsert videos fresh meta) tlsh := by
  obtain ⟨hn1, hn2, htl, href⟩ := hinv
  obtain ⟨t2, ht2⟩ := horig
  have hofresh : orig ≠ fresh := by
    intro hh
    rw [hh, hfresh2] at ht2
    exact absurd ht2 (by simp)
  have hlook : ∀ (q : String) (w : VideoMeta),
      alookup (ainsert videos fresh meta) q = some w →
      (q = fresh ∧ w = meta) ∨ (q ≠ fresh ∧ alookup videos q = some w) := by
    intro q w h
    by_cases hq : q = fresh
    · subst hq
      rw [alookup_ainsert_self] at h
      exact Or.inl ⟨rfl, (Option.some.inj h).symm⟩
    · rw [alookup_ainsert_ne videos fresh q meta hq] at h
      exact Or.inr ⟨hq, h⟩
  refine ⟨nodup_akeys_ainsert _ _ _ hn1, hn2, ?_, ?_⟩
  · intro i t m h1 h2
    rcases hlook i m h2 with ⟨rfl, rfl⟩ | ⟨hne, h2b⟩
    · rw [hfresh2] at h1
      exact absurd h1 (by simp)
    · exact htl i t m h1 h2b
  · intro r m o om h1 h2 h3
    rcases hlook r m h1 with ⟨rfl, rfl⟩ | ⟨hner, h1b⟩
    · have ho : o = orig := by
        rw [hmref] at h2
        exact (Option.some.inj h2).symm
      subst ho
      rcases hlook o om h3 with ⟨rfl, rfl⟩ | ⟨hneo, h3b⟩
      · exact absurd rfl hofresh
      · obtain ⟨hc1, hc2⟩ := htl o t2 om ht2 h3b
        refine ⟨hc1, ?_, hmct.trans hc2.symm⟩
        rw [hmfn, h3b]
        rfl
    · rcases hlook o om h3 with ⟨rfl, rfl⟩ | ⟨hneo, h3b⟩
      · exact absurd h2 (hfresh3 (r, m) (alookup_mem videos r m h1b))
      · exact href r m o om h1b h2 h3b

/-- Inserting a fresh owning item (and, when a fuzzy digest exists, its index entry) preserves the invariant. -/
theorem CatalogInv_insert_owner
    (videos : List (String × VideoMeta)) (tlsh : List (String × String))
    (fresh : String) (meta : VideoMeta) (tl : Option String)
    (hinv : CatalogInv videos tlsh)
    (hfresh1 : alookup videos fresh = none)
    (hfresh2 : alookup tlsh fresh = none)
    (hfresh3 : ∀ p ∈ videos, p.2.references_id ≠ some fresh)
    (hmref : meta.references_id = none)
    (hmct : tl.isSome = true → meta.content_type = "video/mp4") :
    CatalogInv (ainsert videos fresh meta)
      (tl.elim tlsh (fun t => ainsert tlsh fresh t)) := by
  obtain ⟨hn1, hn2, htl, href⟩ := hinv
  have hlook : ∀ (q : String) (w : VideoMeta),
      alookup (ainsert videos fresh meta) q = some w →
      (q = fresh ∧ w = meta) ∨ (q ≠ fresh ∧ alookup videos q = some w) := by
    intro q w h
    by_cases hq : q = fresh
    · subst hq
      rw [alookup_ainsert_self] at h
      exact Or.inl ⟨rfl, (Option.some.inj h).symm⟩
    · rw [alookup_ainsert_ne videos fresh q meta hq] at h
      exact Or.inr ⟨hq, h⟩
  have hreforig : ∀ r m o om, alookup (ainsert videos fresh meta) r = some m →
      m.references_id = some o →
      alookup (ainsert videos fresh meta) o = some om →
      om.references_id = none ∧ m.filename = om.filename
        ∧ m.content_type = om.content_type := by
    intro r m o om h1 h2 h3
    rcases hlook r m h1 with ⟨rfl, rfl⟩ | ⟨hner, h1b⟩
    · rw [hmref] at h2
      exact absurd h2 (by simp)
    · rcases hlook o om h3 with ⟨rfl, rfl⟩ | ⟨hneo, h3b⟩
      · exact absurd h2 (hfresh3 (r, m) (alookup_mem videos r m h1b))
      · exact href r m o om h1b h2 h3b
  cases tl with
  | none =>
    refine ⟨nodup_akeys_ainsert _ _ _ hn1, hn2, ?_, hreforig⟩
    intro i t m h1 h2
    have h1c : alookup tlsh i = some t := h1
    rcases hlook i m h2 with ⟨rfl, rfl⟩ | ⟨hne, h2b⟩
    · rw [hfresh2] at h1c
      exact absurd h1c (by simp)
    · exact htl i t m h1c h2b
  | some tval =>
    refine ⟨nodup_akeys_ainsert _ _ _ hn1, nodup_akeys_ainsert _ _ _ hn2, ?_,
      hreforig⟩
    intro i t m h1 h2
    have h1c : alookup (ainsert tlsh fresh tval) i = some t := h1
    rcases hlook i m h2 with ⟨rfl, rfl⟩ | ⟨hne, h2b⟩
    · exact ⟨hmref, hmct (by simp)⟩
    · rw [alookup_ainsert_ne tlsh fresh i tval hne] at h1c
      exact htl i t m h1c h2b

/-- The components of a referencing commit, read off its definition. -/
theorem commit_reference_state
    (st : Srv) (temp_path original_id base_mime title : String) (size : Nat)
    (n u c : Bool) (user : PlatformUser) (sha : String) (tl : Option String)
    (fresh_id : String) :
    (commit_reference st temp_path original_id base_mime title size n u c user
        sha tl fresh_id).1.videos
      = ainsert st.videos fresh_id
          (commit_reference st temp_path original_id base_mime title size n u c
            user sha tl fresh_id).2
    ∧ (commit_reference st temp_path original_id base_mime title size n u c user
        sha tl fresh_id).1.video_tlsh = st.video_tlsh
    ∧ (commit_reference st temp_path original_id base_mime title size n u c user
        sha tl fresh_id).2.references_id = some original_id
    ∧ (commit_reference st temp_path original_id base_mime title size n u c user
        sha tl fresh_id).2.filename
      = ((alookup st.videos original_id).map (·.filename)).getD ""
    ∧ (commit_reference st temp_path original_id base_mime title size n u c user
        sha tl fresh_id).2.content_type = base_mime := by
  unfold commit_reference persist_video
  exact ⟨rfl, rfl, rfl, rfl, rfl⟩

/-- The components of a new-owner commit, read off its definition. -/
theorem commit_new_owner_state
    (st : Srv) (temp_path : String) (bytes : Bytes)
    (base_mime ext title : String) (n u c : Bool) (user : PlatformUser)
    (sha : String) (tl : Option String) (fresh_id : String) :
    (commit_new_owner st temp_path bytes base_mime ext title n u c user sha tl
        fresh_id).1.videos
      = ainsert st.videos fresh_id
          (commit_new_owner st temp_path bytes base_mime ext title n u c user
            sha tl fresh_id).2
    ∧ (commit_new_owner st temp_path bytes base_mime ext title n u c user sha tl
        fresh_id).1.video_tlsh
      = tl.elim st.video_tlsh (fun t => ainsert st.video_tlsh fresh_id t)
    ∧ (commit_new_owner st temp_path bytes base_mime ext title n u c user sha tl
        fresh_id).2.references_id = none
    ∧ (commit_new_owner st temp_path bytes base_mime ext title n u c user sha tl
        fresh_id).2.content_type = base_mime := by
  unfold commit_new_owner persist_video
  cases tl with
  | none => exact ⟨rfl, rfl, rfl, rfl⟩
  | some t => exact ⟨rfl, rfl, rfl, rfl⟩

/-- A successful find_similar_tlsh result names an entry of the fuzzy index. -/
theorem find_similar_tlsh_mem
    (E : Ext) (tlsh : List (String × String)) (new_hex orig : String)
    (h : find_similar_tlsh E tlsh new_hex = some orig) :
    ∃ t2, (orig, t2) ∈ tlsh := by
  unfold find_similar_tlsh at h
  by_cases hp : E.tlsh_parse_ok new_hex = true
  · rw [if_pos hp] at h
    rcases hf : tlsh.find? (fun p =>
        E.tlsh_parse_ok p.2
          && decide (E.tlsh_diff p.2 new_hex < SIMILARITY_THRESHOLD)) with _ | p
    · rw [hf] at h
      exact absurd h (by simp)
    · rw [hf] at h
      simp only [Option.map_some'] at h
      obtain rfl : p.1 = orig := Option.some.inj h
      exact ⟨p.2, by
        have := List.mem_of_find?_eq_some hf
        simpa using this⟩
  · rw [if_neg hp] at h
    exact absurd h (by simp)

/-- The dedup decision of process_hashed preserves the catalog invariant. -/
theorem CatalogInv_process_hashed
    (E : Ext) (st : Srv) (temp_path : String) (bytes : Bytes)
    (base_mime ext title : String) (n u c : Bool) (user : PlatformUser)
    (fresh_id : String)
    (hinv : CatalogInv st.videos st.video_tlsh)
    (hfresh1 : alookup st.videos fresh_id = none)
    (hfresh2 : alookup st.video_tlsh fresh_id = none)
    (hfresh3 : ∀ p ∈ st.videos, p.2.references_id ≠ some fresh_id)
    (hbm : is_video_mime base_mime = true → base_mime = "video/mp4") :
    CatalogInv
      (process_hashed E st temp_path bytes base_mime ext title n u c user
        fresh_id).1.videos
      (process_hashed E st temp_path bytes base_mime ext title n u c user
        fresh_id).1.video_tlsh := by
  rcases hdup : alookup st.video_hashes (E.sha256_hex bytes) with _ | ex
  · rcases hsim : (match (if is_video_mime base_mime = true then E.tlsh_build bytes else none) with
                   | some x => find_similar_tlsh E st.video_tlsh x
                   | none => none) with _ | orig
    · rw [process_hashed_new E st temp_path bytes base_mime ext title n u c user
        fresh_id hdup hsim]
      obtain ⟨he1, he2, he3, he4⟩ := commit_new_owner_state st temp_path bytes
        base_mime ext title n u c user (E.sha256_hex bytes)
        (if is_video_mime base_mime = true then E.tlsh_build bytes else none)
        fresh_id
      rw [he1, he2]
      refine CatalogInv_insert_owner st.videos st.video_tlsh fresh_id _
        (if is_video_mime base_mime = true then E.tlsh_build bytes else none)
        hinv hfresh1 hfresh2 hfresh3 he3 ?_
      intro hsome
      rcases hvm : is_video_mime base_mime with _ | _
      · rw [hvm] at hsome
        simp at hsome
      · exact he4.trans (hbm hvm)
    · rcases hvm : is_video_mime base_mime with _ | _
      · rw [hvm] at hsim
        simp at hsim
      · rcases htl : E.tlsh_build bytes with _ | t
        · rw [hvm, htl] at hsim
          simp at hsim
        · rw [hvm, htl] at hsim
          simp only [if_true] at hsim
          rw [process_hashed_ref E st temp_path bytes base_mime ext title n u c
            user fresh_id orig t hdup hvm htl hsim]
          obtain ⟨he1, he2, he3, he4, he5⟩ := commit_reference_state st temp_path
            orig base_mime title bytes.length n u c user (E.sha256_hex bytes)
            (some t) fresh_id
          rw [he1, he2]
          obtain ⟨t2, ht2mem⟩ := find_similar_tlsh_mem E st.video_tlsh t orig hsim
          exact CatalogInv_insert_ref st.videos st.video_tlsh fresh_id orig _
            hinv hfresh1 hfresh2 hfresh3 he3 he4 (he5.trans (hbm hvm))
            ⟨t2, alookup_of_mem st.video_tlsh orig t2 hinv.2.1 ht2mem⟩
  · rw [process_hashed_dup E st temp_path bytes base_mime ext title n u c user
      fresh_id ex hdup]
    exact hinv

/-- process_uploaded_file preserves the catalog invariant for a fresh id. -/
theorem CatalogInv_process_uploaded_file
    (E : Ext) (st : Srv) (temp_path base_mime title : String) (n u c : Bool)
    (user : PlatformUser) (fresh_id : String)
    (hinv : CatalogInv st.videos st.video_tlsh)
    (hfresh1 : alookup st.videos fresh_id = none)
    (hfresh2 : alookup st.video_tlsh fresh_id = none)
    (hfresh3 : ∀ p ∈ st.videos, p.2.references_id ≠ some fresh_id) :
    CatalogInv
      (process_uploaded_file E st temp_path base_mime title n u c user
        fresh_id).1.videos
      (process_uploaded_file E st temp_path base_mime title n u c user
        fresh_id).1.video_tlsh := by
  unfold process_uploaded_file
  split
  · exact hinv
  · split
    · exact hinv
    · split
      · exact hinv
      · split
        · next hv =>
          split
          · exact hinv
          · exact CatalogInv_process_hashed E _ temp_path _ "video/mp4" ".mp4"
              title n u c user fresh_id hinv hfresh1 hfresh2 hfresh3
              (fun _ => rfl)
        · next hv =>
          refine CatalogInv_process_hashed E st temp_path _ base_mime _
            title n u c user fresh_id hinv hfresh1 hfresh2 hfresh3 ?_
          intro hvideo
          by_contra hne
          exact hv ⟨hvideo, hne⟩

/-- handle_delete preserves the catalog invariant. -/
theorem CatalogInv_handle_delete
    (st : Srv) (id : String)
    (hinv : CatalogInv st.videos st.video_tlsh) :
    CatalogInv (handle_delete st id).1.videos
      (handle_delete st id).1.video_tlsh := by
  unfold handle_delete delete_video_meta
  rcases hv : alookup st.videos id with _ | meta
  · simp only [hv]
    exact hinv
  · simp only [hv]
    split
    · split
      · exact CatalogInv_erase st.videos st.video_tlsh hinv id id
      · exact CatalogInv_erase_videos st.videos st.video_tlsh hinv id
    · exact CatalogInv_erase_videos st.videos st.video_tlsh hinv id

/-- handle_patch_nsfw preserves the catalog invariant. -/
theorem CatalogInv_handle_patch_nsfw
    (st : Srv) (id : String) (b : Bool)
    (hinv : CatalogInv st.videos st.video_tlsh) :
    CatalogInv (handle_patch_nsfw st id b).1.videos
      (handle_patch_nsfw st id b).1.video_tlsh := by
  unfold handle_patch_nsfw persist_video
  rcases hv : alookup st.videos id with _ | v
  · simp only [hv]
    exact hinv
  · simp only [hv]
    exact CatalogInv_update_fields st.videos st.video_tlsh id v
      { v with nsfw := b } hv rfl rfl rfl hinv

/-- handle_patch_comments_disabled preserves the catalog invariant. -/
theorem CatalogInv_handle_patch_cd
    (st : Srv) (id : String) (b : Bool) (user : PlatformUser)
    (hinv : CatalogInv st.videos st.video_tlsh) :
    CatalogInv (handle_patch_comments_disabled st id b user).1.videos
      (handle_patch_comments_disabled st id b user).1.video_tlsh := by
  unfold handle_patch_comments_disabled persist_video
  rcases hv : alookup st.videos id with _ | v
  · simp only [hv]
    exact hinv
  · simp only [hv]
    split
    · exact hinv
    · exact CatalogInv_update_fields st.videos st.video_tlsh id v
        { v with comments_disabled := b } hv rfl rfl rfl hinv

/-
States reachable through the catalog-mutating operations of the pipeline.
The env step overwrites every non-catalog field arbitrarily: it subsumes
temp-file writes, chunk writes, session bookkeeping and any other effect
that does not go through the catalog API.  The upload step requires the
generated id to be fresh, as a freshly generated UUID is: it is not a
catalog key, not a fuzzy-index key, and not referenced by any item.
-/
inductive Reach (E : Ext) : Srv → Prop where
  | init : Reach E initSrv
  | env (st : Srv) (f : List (String × Bytes))
      (s : List (String × UploadSession))
      (c : List (String × List (Nat × Bytes)))
      (m : List (String × VideoMeta)) (a : List (String × List Nat)) :
      Reach E st →
      Reach E { st with
          files := f, upload_sessions := s, chunk_dirs := c,
          meta_files := m, admin_ids := a }
  | upload (st : Srv) (temp_path base_mime title : String) (n u c : Bool)
      (user : PlatformUser) (fresh_id : String) :
      Reach E st →
      alookup st.videos fresh_id = none →
      alookup st.video_tlsh fresh_id = none →
      (∀ p ∈ st.videos, p.2.references_id ≠ some fresh_id) →
      Reach E (process_uploaded_file E st temp_path base_mime title n u c user
        fresh_id).1
  | del (st : Srv) (id : String) :
      Reach E st → Reach E (handle_delete st id).1
  | nsfw (st : Srv) (id : String) (b : Bool) :
      Reach E st → Reach E (handle_patch_nsfw st id b).1
  | cdis (st : Srv) (id : String) (b : Bool) (user : PlatformUser) :
      Reach E st → Reach E (handle_patch_comments_disabled st id b user).1

/-- Every reachable state satisfies the catalog invariant. -/
theorem reach_catalog_inv (E : Ext) (st : Srv) (hr : Reach E st) :
    CatalogInv st.videos st.video_tlsh := by
  induction hr with
  | init => exact CatalogInv_init
  | env st2 f s c m a _ ih => exact ih
  | upload st2 temp_path base_mime title n u c user fresh_id _ hf1 hf2 hf3 ih =>
    exact CatalogInv_process_uploaded_file E st2 temp_path base_mime title
      n u c user fresh_id ih hf1 hf2 hf3
  | del st2 id _ ih => exact CatalogInv_handle_delete st2 id ih
  | nsfw st2 id b _ ih => exact CatalogInv_handle_patch_nsfw st2 id b ih
  | cdis st2 id b user _ ih => exact CatalogInv_handle_patch_cd st2 id b user ih

/--
C6: in every reachable state, a committed referencing item whose referenced
id is still in the catalog points at a non-referencing owner (references
are never chained), and the file name and content type that stream_file
uses for its I/O are exactly the owner's, reached in one hop.
-/
theorem c6_references_one_hop
    (E : Ext) (st : Srv) (hr : Reach E st) :
    ∀ (r : String) (m : VideoMeta) (o : String) (om : VideoMeta),
      alookup st.videos r = some m →
      m.references_id = some o →
      alookup st.videos o = some om →
      om.references_id = none
        ∧ stream_source st m = (om.filename, om.content_type) := by
  intro r m o om h1 h2 h3
  obtain ⟨hc1, hc2, hc3⟩ :=
    (reach_catalog_inv E st hr).2.2.2 r m o om h1 h2 h3
  refine ⟨hc1, ?_⟩
  unfold stream_source
  simp only [h2, h3, Option.map_some', Option.getD_some]
  rw [hc3]

/-- Stage 1 of the c6 sample run: the environment writes a temp file. -/
def c6_s1 : Srv := { initSrv with files := [("tmpA", ftypBytes)] }

/-- Stage 2: the first upload commits as a new owning item with id idA. -/
def c6_s2 : Srv :=
  (process_uploaded_file E0 c6_s1 "tmpA" "video/mp4" "first" false false true
    user0 "idA").1

/-- Stage 3: the environment writes a second, near-duplicate temp file. -/
def c6_s3 : Srv :=
  { c6_s2 with
      files := [("tmpB", ftypBytes ++ [7])]
      upload_sessions := []
      chunk_dirs := []
      meta_files := []
      admin_ids := [] }

/-- Stage 4: the second upload fuzzy-matches idA and commits as a reference. -/
def c6_s4 : Srv :=
  (process_uploaded_file E0 c6_s3 "tmpB" "video/mp4" "second" false false true
    user0 "idB").1

/-- The owning record committed by the first c6 upload. -/
def c6_metaA : VideoMeta :=
  { id := "idA", title := "first", filename := "idA.mp4"
    content_type := "video/mp4", size_bytes := 8
    sha256 := "sha-8-0", tlsh_hash := some "tl-24"
    uploaded_by_provider := "osu", uploaded_by_id := 7
    uploaded_by_name := "alice", nsfw := false, unlisted := false
    comments_disabled := true, references_id := none }

/-- The referencing record committed by the second c6 upload. -/
def c6_metaB : VideoMeta :=
  { id := "idB", title := "second", filename := "idA.mp4"
    content_type := "video/mp4", size_bytes := 9
    sha256 := "sha-9-0", tlsh_hash := some "tl-24"
    uploaded_by_provider := "osu", uploaded_by_id := 7
    uploaded_by_name := "alice", nsfw := false, unlisted := false
    comments_disabled := true, references_id := some "idA" }

/-- The c6 sample run is reachable: env, upload, env, upload from the initial state. -/
theorem c6_reach_s4 : Reach E0 c6_s4 := by
  have h1 : Reach E0 c6_s1 :=
    Reach.env initSrv [("tmpA", ftypBytes)] [] [] [] [] Reach.init
  have h2 : Reach E0 c6_s2 :=
    Reach.upload c6_s1 "tmpA" "video/mp4" "first" false false true user0 "idA"
      h1 (by decide) (by decide) (by decide)
  have h3 : Reach E0 c6_s3 :=
    Reach.env c6_s2 [("tmpB", ftypBytes ++ [7])] [] [] [] [] h2
  exact Reach.upload c6_s3 "tmpB" "video/mp4" "second" false false true user0
    "idB" h3 (by decide) (by decide) (by decide)

/-- Instantiation of c6 at a concrete reachable state: the referencing item idB committed by a fuzzy match points at the non-referencing owner idA, and streaming idB reads the owner's file with the item's content type. -/
theorem c6_witness :
    alookup c6_s4.videos "idB" = some c6_metaB
    ∧ c6_metaB.references_id = some "idA"
    ∧ alookup c6_s4.videos "idA" = some c6_metaA
    ∧ c6_metaA.references_id = none
    ∧ stream_source c6_s4 c6_metaB = (c6_metaA.filename, c6_metaA.content_type) :=
  have hB : alookup c6_s4.videos "idB" = some c6_metaB := by decide
  have href : c6_metaB.references_id = some "idA" := rfl
  have hA : alookup c6_s4.videos "idA" = some c6_metaA := by decide
  have h := c6_references_one_hop E0 c6_s4 c6_reach_s4 "idB" c6_metaB "idA"
    c6_metaA hB href hA
  ⟨hB, href, hA, h.1, h.2⟩

end Skibidi
